import Mathlib

/-!
Verification development for the `raytracer_ini` renderer.

The Rust sources under `src/` are shallowly embedded here: `f64` values are
modelled as real numbers (`ℝ`), with real division total in the usual Lean
convention (`x / 0 = 0`).  A square root of a negative radicand is `NaN` in
the Rust code and every comparison with it is false; the embedding models the
code's `is_nan` test on `sqrt (d)` as the test `d < 0`.  `Option` models both
Rust's `Option` and, for the recursive colour resolver and shadow test (which
recurse without any structural bound in Rust), the outcome of running the
recursion with an explicit fuel parameter: `none` appears only when the fuel
is exhausted, so fuel `n` sufficing is exactly the statement that the call
tree is at most `n` levels deep.
-/

namespace Raytracer

noncomputable section

open Real

/-- Tolerance with which floating point comparisons are carried out
(`src/constants.rs`). -/
def TOLERANCE : ℝ := 0.00001

/-- Flag for calculating shadows (`src/constants.rs`). -/
def SHADOWS : Bool := true

/-- Max number of recursive calls due to reflection (`src/constants.rs`). -/
def MAX_REFLECTIONS : ℕ := 5

/-- Modelled from the spec: `src/raytracer.rs` imports `TOLERANCE_MUL` from
`crate::constants`, but `src/constants.rs` in the repository does not define
it.  The spec only says the accumulated opacity budget must exceed "a minimal
threshold" (`TOLERANCE * TOLERANCE_MUL`); we model the multiplier as `10`,
making the threshold `0.0001`, which is minimal in the spec's sense. -/
def TOLERANCE_MUL : ℝ := 10

/-- Three-component real vector (`src/vec3.rs`). -/
structure Vec3 where
  x : ℝ
  y : ℝ
  z : ℝ


namespace Vec3

/-- Componentwise addition (`vec3_op_vec!(ops::Add, add)`). -/
def add (a b : Vec3) : Vec3 := ⟨a.x + b.x, a.y + b.y, a.z + b.z⟩

/-- Componentwise subtraction (`vec3_op_vec!(ops::Sub, sub)`). -/
def sub (a b : Vec3) : Vec3 := ⟨a.x - b.x, a.y - b.y, a.z - b.z⟩

/-- Multiplication of every component by a scalar
(`vec3_op_num!(ops::Mul, mul)`, both operand orders). -/
def smul (k : ℝ) (a : Vec3) : Vec3 := ⟨a.x * k, a.y * k, a.z * k⟩

/-- Division of every component by a scalar (`vec3_op_num!(ops::Div, div)`). -/
def divk (a : Vec3) (k : ℝ) : Vec3 := ⟨a.x / k, a.y / k, a.z / k⟩

instance : Add Vec3 := ⟨add⟩

instance : Sub Vec3 := ⟨sub⟩

instance : HMul ℝ Vec3 Vec3 := ⟨smul⟩

instance : HMul Vec3 ℝ Vec3 := ⟨fun a k => smul k a⟩

instance : HDiv Vec3 ℝ Vec3 := ⟨divk⟩

/-- The 2-norm of the vector (`Vec3::norm`). -/
def norm (a : Vec3) : ℝ := Real.sqrt (a.x * a.x + a.y * a.y + a.z * a.z)

/-- Normalized vector with 2-norm of 1 (`Vec3::normalize`). -/
def normalize (a : Vec3) : Vec3 := a / a.norm

/-- Dot product (`Vec3::dot`). -/
def dot (a b : Vec3) : ℝ := a.x * b.x + a.y * b.y + a.z * b.z

/-- Cross product (`Vec3::cross`). -/
def cross (a b : Vec3) : Vec3 :=
  ⟨a.y * b.z - a.z * b.y, a.z * b.x - a.x * b.z, a.x * b.y - a.y * b.x⟩

/-- Translation by the three given offsets (`Vec3::translation`). -/
def translation (a : Vec3) (x y z : ℝ) : Vec3 := a + Vec3.mk x y z

end Vec3

/-- A 3x3 real matrix, modelling the Rust array type `[[f64; 3]; 3]`. -/
structure Mat3 where
  m00 : ℝ
  m01 : ℝ
  m02 : ℝ
  m10 : ℝ
  m11 : ℝ
  m12 : ℝ
  m20 : ℝ
  m21 : ℝ
  m22 : ℝ


/-- The identity matrix (the constant `I` in `Vec3::to_align`). -/
def I3 : Mat3 := ⟨1, 0, 0, 0, 1, 0, 0, 0, 1⟩

/-- Entrywise sum of two matrices (`matrix_sum` in `src/vec3.rs`). -/
def matrix_sum (a b : Mat3) : Mat3 :=
  ⟨a.m00 + b.m00, a.m01 + b.m01, a.m02 + b.m02,
   a.m10 + b.m10, a.m11 + b.m11, a.m12 + b.m12,
   a.m20 + b.m20, a.m21 + b.m21, a.m22 + b.m22⟩

/-- Multiplication of every entry by a scalar (`matrix_mul_k` in
`src/vec3.rs`). -/
def matrix_mul_k (a : Mat3) (k : ℝ) : Mat3 :=
  ⟨a.m00 * k, a.m01 * k, a.m02 * k,
   a.m10 * k, a.m11 * k, a.m12 * k,
   a.m20 * k, a.m21 * k, a.m22 * k⟩

namespace Vec3

/-- Standard matrix-vector product (`Vec3::apply_matrix`). -/
def apply_matrix (a : Vec3) (m : Mat3) : Vec3 :=
  ⟨m.m00 * a.x + m.m01 * a.y + m.m02 * a.z,
   m.m10 * a.x + m.m11 * a.y + m.m12 * a.z,
   m.m20 * a.x + m.m21 * a.y + m.m22 * a.z⟩

/-- Skew-symmetric cross-product matrix of `v` (the `skew` array in
`Vec3::to_align`). -/
def skewOf (v : Vec3) : Mat3 :=
  ⟨0, -v.z, v.y,
   v.z, 0, -v.x,
   -v.y, v.x, 0⟩

/-- Square of the skew matrix, written out entrywise (the `skew2` array in
`Vec3::to_align`). -/
def skew2Of (v : Vec3) : Mat3 :=
  ⟨-(v.y * v.y) - v.z * v.z, v.x * v.y, v.x * v.z,
   v.x * v.y, -(v.x * v.x) - v.z * v.z, v.y * v.z,
   v.x * v.z, v.y * v.z, -(v.x * v.x) - v.y * v.y⟩

/-- Rotation matrix aligning `self` with `to_align`, via Rodrigues' formula;
antiparallel directions (dot within `TOLERANCE` of `-1`) return the identity
matrix (`Vec3::to_align` in `src/vec3.rs`). -/
def to_align (self toAlign : Vec3) : Mat3 :=
  let a := self.normalize
  let b := toAlign.normalize
  let c := a.dot b
  if |c + 1| < TOLERANCE then I3
  else
    let v := a.cross b
    matrix_sum I3 (matrix_sum (skewOf v) (matrix_mul_k (skew2Of v) (1 / (1 + c))))

end Vec3

/-- Clamped RGB colour triple (`src/shapes.rs`). -/
structure Color where
  r : ℝ
  g : ℝ
  b : ℝ


/-- Rust's `f64::clamp(lo, hi)`: below `lo` gives `lo`, above `hi` gives
`hi`. -/
def clampR (x lo hi : ℝ) : ℝ := min (max x lo) hi

namespace Color

/-- The constant `colors::WHITE`. -/
def WHITE : Color := ⟨1, 1, 1⟩

/-- The constant `colors::BLACK`. -/
def BLACK : Color := ⟨0, 0, 0⟩

/-- Componentwise addition, clamped into `[0, 1]`
(`color_op_vec!(ops::Add, add)`). -/
def add (a b : Color) : Color :=
  ⟨clampR (a.r + b.r) 0 1, clampR (a.g + b.g) 0 1, clampR (a.b + b.b) 0 1⟩

/-- Componentwise subtraction, clamped into `[0, 1]`
(`color_op_vec!(ops::Sub, sub)`). -/
def sub (a b : Color) : Color :=
  ⟨clampR (a.r - b.r) 0 1, clampR (a.g - b.g) 0 1, clampR (a.b - b.b) 0 1⟩

/-- Componentwise multiplication, clamped into `[0, 1]`
(`color_op_vec!(ops::Mul, mul)`). -/
def mul (a b : Color) : Color :=
  ⟨clampR (a.r * b.r) 0 1, clampR (a.g * b.g) 0 1, clampR (a.b * b.b) 0 1⟩

/-- Multiplication of every channel by a scalar, with no clamping
(`impl ops::Mul<f64> for Color` and `impl ops::Mul<Color> for f64`). -/
def smul (k : ℝ) (a : Color) : Color := ⟨a.r * k, a.g * k, a.b * k⟩

/-- Componentwise minimum with a scalar (`Color::min`). -/
def cmin (a : Color) (m : ℝ) : Color := ⟨min a.r m, min a.g m, min a.b m⟩

instance : Add Color := ⟨add⟩

instance : Sub Color := ⟨sub⟩

instance : Mul Color := ⟨mul⟩

instance : HMul ℝ Color Color := ⟨smul⟩

instance : HMul Color ℝ Color := ⟨fun a k => smul k a⟩

end Color

/-- Summation of a list of colours, folding clamped addition from `BLACK`
(`impl Sum<Self> for Color`). -/
def colorSum (l : List Color) : Color :=
  l.foldl (fun acc c => acc + c) Color.BLACK

/-- A ray: anchor point and direction (`src/shapes.rs`). -/
structure Ray where
  anchor : Vec3
  dir : Vec3


namespace Ray

/-- Ray through two points, with normalized direction
(`Ray::from_2_points`). -/
def from_2_points (pOrigin pTarget : Vec3) : Ray :=
  ⟨pOrigin, (pTarget - pOrigin).normalize⟩

/-- Advance the anchor by `t` along the ray's own direction
(`Ray::advance`). -/
def advance (ray : Ray) (t : ℝ) : Ray :=
  ⟨ray.anchor + t * ray.dir, ray.dir⟩

/-- Point on the ray at parameter `t` (`Ray::point_at_t`). -/
def point_at_t (ray : Ray) (t : ℝ) : Vec3 :=
  ray.anchor + ray.dir * t

end Ray

/-- Shared material state attached to every primitive
(`ObjectParameters` in `src/shapes.rs`). -/
structure ObjectParameters where
  color : Color
  k_a : ℝ
  k_d : ℝ
  k_n : ℝ
  k_s : ℝ
  o1 : ℝ
  reflection : ℝ
  transparency : ℝ
  checkerboard : ℝ

/-- Two-dimensional surface texture coordinates (`TextureCoords` in
`src/shapes.rs`). -/
structure TextureCoords where
  x : ℝ
  y : ℝ

/-- Rust's `f64::atan2(self, other)` with `self` the y-coordinate, by the
standard quadrant case analysis. -/
def atan2 (y x : ℝ) : ℝ :=
  if 0 < x then Real.arctan (y / x)
  else if x < 0 then
    (if 0 ≤ y then Real.arctan (y / x) + Real.pi else Real.arctan (y / x) - Real.pi)
  else
    (if 0 < y then Real.pi / 2 else if y < 0 then -(Real.pi / 2) else 0)

/-- Infinite plane primitive (`Plane` in `src/shapes.rs`): stored normal is
normalized by `Plane::new`. -/
structure Plane where
  normal : Vec3
  anchor : Vec3
  params : ObjectParameters

namespace Plane

/-- Constructor normalizing the normal (`Plane::new`). -/
def new (normal point : Vec3) (params : ObjectParameters) : Plane :=
  ⟨normal.normalize, point, params⟩

/-- Ray-plane intersection (`impl ShapeCalculations for Plane`,
`get_intersection`): near-parallel denominators below `TOLERANCE` give no
intersection, otherwise only `t > 0` is accepted. -/
def get_intersection (self : Plane) (ray : Ray) : Option ℝ :=
  let normal := self.normal
  let denominator := normal.dot ray.dir
  if |denominator| < TOLERANCE then none
  else
    let t := 1 * ((self.anchor - ray.anchor).dot normal) / denominator
    if t > 0 then some t else none

/-- Surface normal (`get_normal_vec`). -/
def get_normal_vec (self : Plane) (_ : Vec3) : Vec3 := self.normal

/-- Texture coordinates on the plane (`get_texture_coords`). -/
def get_texture_coords (self : Plane) (intersection : Vec3) : TextureCoords :=
  let xAxis0 := self.normal.cross (Vec3.mk 0 0 1)
  let xAxis := if xAxis0.norm = 0 then self.normal.cross (Vec3.mk 0 1 0) else xAxis0
  let yAxis := self.normal.cross xAxis
  let planeVec := intersection - self.anchor
  ⟨planeVec.dot xAxis, planeVec.dot yAxis⟩

end Plane

/-- Disc primitive (`Disc` in `src/shapes.rs`). -/
structure Disc where
  normal : Vec3
  center : Vec3
  r : ℝ
  params : ObjectParameters

namespace Disc

/-- Constructor normalizing the normal (`Disc::new`). -/
def new (normal center : Vec3) (r : ℝ) (params : ObjectParameters) : Disc :=
  ⟨normal.normalize, center, r, params⟩

/-- Ray-disc intersection (`impl ShapeCalculations for Disc`): plane solve
plus a radial containment check. -/
def get_intersection (self : Disc) (ray : Ray) : Option ℝ :=
  let normal := self.normal
  let denominator := normal.dot ray.dir
  if |denominator| < TOLERANCE then none
  else
    let t := 1 * ((self.center - ray.anchor).dot normal) / denominator
    if t > 0 ∧ (ray.point_at_t t - self.center).norm ≤ self.r then some t else none

/-- Surface normal (`get_normal_vec`). -/
def get_normal_vec (self : Disc) (_ : Vec3) : Vec3 := self.normal

/-- Texture coordinates on the disc (`get_texture_coords`). -/
def get_texture_coords (self : Disc) (intersection : Vec3) : TextureCoords :=
  let xAxis0 := self.normal.cross (Vec3.mk 0 0 1)
  let xAxis := if xAxis0.norm = 0 then self.normal.cross (Vec3.mk 0 1 0) else xAxis0
  let yAxis := self.normal.cross xAxis
  let planeVec := intersection - self.center
  ⟨planeVec.dot xAxis, planeVec.dot yAxis⟩

end Disc

/-- Triangle primitive (`Triangle` in `src/shapes.rs`): the normal is derived
from the vertices at construction. -/
structure Triangle where
  normal : Vec3
  a : Vec3
  b : Vec3
  c : Vec3
  params : ObjectParameters

namespace Triangle

/-- Constructor deriving the normal (`Triangle::new`). -/
def new (a b c : Vec3) (params : ObjectParameters) : Triangle :=
  ⟨((b - a).cross (c - a)).normalize, a, b, c, params⟩

/-- Ray-triangle intersection (`impl ShapeCalculations for Triangle`): plane
solve against the triangle's normal, then barycentric containment check. -/
def get_intersection (self : Triangle) (ray : Ray) : Option ℝ :=
  let normal := self.normal
  let denominator := normal.dot ray.dir
  if |denominator| < TOLERANCE then none
  else
    let t := 1 * ((self.a - ray.anchor).dot normal) / denominator
    let p := ray.point_at_t t
    let u := self.b - self.a
    let v := self.c - self.a
    let n := u.cross v
    let w := p - self.a
    let n2 := n.dot n
    let gamma := ((u.cross w).dot n) / n2
    let beta := ((w.cross v).dot n) / n2
    let alpha := 1 - gamma - beta
    if t > 0 ∧ 0 ≤ alpha ∧ alpha ≤ 1 ∧ 0 ≤ beta ∧ beta ≤ 1 ∧ 0 ≤ gamma ∧ gamma ≤ 1
    then some t else none

/-- Surface normal (`get_normal_vec`). -/
def get_normal_vec (self : Triangle) (_ : Vec3) : Vec3 := self.normal

/-- Texture coordinates (`get_texture_coords`). -/
def get_texture_coords (self : Triangle) (intersection : Vec3) : TextureCoords :=
  let xAxis0 := self.normal.cross (Vec3.mk 0 0 1)
  let xAxis := if xAxis0.norm = 0 then self.normal.cross (Vec3.mk 0 1 0) else xAxis0
  let yAxis := self.normal.cross xAxis
  let planeVec := intersection - self.a
  ⟨planeVec.dot xAxis, planeVec.dot yAxis⟩

end Triangle

/-- Sphere primitive (`Sphere` in `src/shapes.rs`). -/
structure Sphere where
  center : Vec3
  r : ℝ
  params : ObjectParameters

namespace Sphere

/-- Coefficient `b` of the reduced quadratic in `Sphere::get_intersection`. -/
def qb (self : Sphere) (ray : Ray) : ℝ :=
  2 * (ray.dir.x * (ray.anchor.x - self.center.x)
    + ray.dir.y * (ray.anchor.y - self.center.y)
    + ray.dir.z * (ray.anchor.z - self.center.z))

/-- Coefficient `c` of the reduced quadratic in `Sphere::get_intersection`. -/
def qc (self : Sphere) (ray : Ray) : ℝ :=
  (ray.anchor.x - self.center.x) ^ 2
    + (ray.anchor.y - self.center.y) ^ 2
    + (ray.anchor.z - self.center.z) ^ 2
    - self.r * self.r

/-- Radicand `b * b - 4 * c` whose square root the code takes; it is `NaN`
in the code exactly when this is negative. -/
def disc (self : Sphere) (ray : Ray) : ℝ :=
  qb self ray * qb self ray - 4 * qc self ray

/-- Near root `t1 = (-b - sqrt (disc)) / 2`. -/
def t1 (self : Sphere) (ray : Ray) : ℝ :=
  (-(qb self ray) - Real.sqrt (disc self ray)) / 2

/-- Far root `t2 = (-b + sqrt (disc)) / 2`. -/
def t2 (self : Sphere) (ray : Ray) : ℝ :=
  (-(qb self ray) + Real.sqrt (disc self ray)) / 2

/-- Ray-sphere intersection (`impl ShapeCalculations for Sphere`): `NaN`
discriminant (negative radicand) gives none; the near root is returned when
positive, otherwise none when the far root is negative, otherwise the far
root (camera inside the sphere). -/
def get_intersection (self : Sphere) (ray : Ray) : Option ℝ :=
  if disc self ray < 0 then none
  else if t1 self ray > 0 then some (t1 self ray)
  else if t2 self ray < 0 then none
  else some (t2 self ray)

/-- Surface normal (`get_normal_vec`). -/
def get_normal_vec (self : Sphere) (intersection : Vec3) : Vec3 :=
  (intersection - self.center) / self.r

/-- Texture coordinates on the sphere (`get_texture_coords`). -/
def get_texture_coords (self : Sphere) (intersection : Vec3) : TextureCoords :=
  let sphericalVec := intersection - self.center
  ⟨2 * self.r * (1 + atan2 sphericalVec.z sphericalVec.x),
   2 * self.r * Real.arccos (sphericalVec.y / self.r)⟩

end Sphere

/-- Cylinder primitive (`Cylinder` in `src/shapes.rs`): axis ray, radius and
length. -/
structure Cylinder where
  ray : Ray
  r : ℝ
  length : ℝ
  params : ObjectParameters

namespace Cylinder

/-- Constructor normalizing the axis direction (`Cylinder::new`). -/
def new (anchor dir : Vec3) (r length : ℝ) (params : ObjectParameters) : Cylinder :=
  ⟨⟨anchor, dir.normalize⟩, r, length, params⟩

/-- Axial projection distance of a point from the base
(`Cylinder::get_length_at_inter`). -/
def get_length_at_inter (self : Cylinder) (intersection : Vec3) : ℝ :=
  (intersection - self.ray.anchor).dot self.ray.dir

/-- Ray-cylinder intersection (`impl ShapeCalculations for Cylinder`): the
ray is translated and rotated into the cylinder's local frame, the quadratic
is solved there, and roots are filtered by the axial projection of the hit
point lying in `(0, length]`. -/
def get_intersection (self : Cylinder) (ray : Ray) : Option ℝ :=
  let displacedAnchor :=
    ray.anchor.translation (-self.ray.anchor.x) (-self.ray.anchor.y) (-self.ray.anchor.z)
  let rotation := self.ray.dir.to_align (Vec3.mk 0 1 0)
  let dir := ray.dir.apply_matrix rotation
  let anchor := displacedAnchor.apply_matrix rotation
  let a := dir.x * dir.x + dir.z * dir.z
  let b := 2 * (dir.x * anchor.x + dir.z * anchor.z)
  let c := anchor.x * anchor.x + anchor.z * anchor.z - self.r * self.r
  if b * b - 4 * a * c < 0 then none
  else
    let determinant := Real.sqrt (b * b - 4 * a * c)
    let t1 := (-b - determinant) / (2 * a)
    let t2 := (-b + determinant) / (2 * a)
    let t1d := self.get_length_at_inter (ray.point_at_t t1)
    let t2d := self.get_length_at_inter (ray.point_at_t t2)
    if t1 > 0 then
      if t1d ≤ self.length ∧ t1d > 0 then some t1
      else if t2d ≤ self.length ∧ t2d > 0 then some t2
      else none
    else if t2 < 0 then none
    else if t2d ≤ self.length ∧ t2d > 0 then some t2
    else none

/-- Surface normal (`get_normal_vec`). -/
def get_normal_vec (self : Cylinder) (intersection : Vec3) : Vec3 :=
  let d := self.get_length_at_inter intersection
  let vm := self.ray.point_at_t d
  (intersection - vm).normalize

/-- Texture coordinates on the cylinder (`get_texture_coords`). -/
def get_texture_coords (self : Cylinder) (intersection : Vec3) : TextureCoords :=
  let displacedIntersection :=
    intersection.translation (-self.ray.anchor.x) (-self.ray.anchor.y) (-self.ray.anchor.z)
  let rotation := self.ray.dir.to_align (Vec3.mk 0 1 0)
  let rotated := displacedIntersection.apply_matrix rotation
  ⟨self.r * (1 + atan2 rotated.z rotated.x), rotated.y⟩

end Cylinder

/-- Cone primitive (`Cone` in `src/shapes.rs`): axis ray, length and a slope
derived as `k2 / k1`. -/
structure Cone where
  ray : Ray
  length : ℝ
  params : ObjectParameters
  slope : ℝ

namespace Cone

/-- Constructor normalizing the axis direction and deriving the slope
(`Cone::new`). -/
def new (anchor dir : Vec3) (length k1 k2 : ℝ) (params : ObjectParameters) : Cone :=
  ⟨⟨anchor, dir.normalize⟩, length, params, k2 / k1⟩

/-- Axial projection distance of a point from the apex
(`Cone::get_length_at_inter`). -/
def get_length_at_inter (self : Cone) (intersection : Vec3) : ℝ :=
  (intersection - self.ray.anchor).dot self.ray.dir

/-- Cross-section radius at a given axial distance (`Cone::r_at`). -/
def r_at (self : Cone) (length : ℝ) : ℝ := length * self.slope

/-- Ray-cone intersection (`impl ShapeCalculations for Cone`): same local
frame transform as the cylinder, with the cone quadratic. -/
def get_intersection (self : Cone) (ray : Ray) : Option ℝ :=
  let displacedAnchor :=
    ray.anchor.translation (-self.ray.anchor.x) (-self.ray.anchor.y) (-self.ray.anchor.z)
  let rotation := self.ray.dir.to_align (Vec3.mk 0 1 0)
  let dir := ray.dir.apply_matrix rotation
  let anchor := displacedAnchor.apply_matrix rotation
  let slope2 := self.slope * self.slope
  let a := dir.x * dir.x + dir.z * dir.z - dir.y * dir.y * slope2
  let b := 2 * (dir.x * anchor.x + dir.z * anchor.z - dir.y * anchor.y * slope2)
  let c := anchor.x * anchor.x + anchor.z * anchor.z - anchor.y * anchor.y * slope2
  if b * b - 4 * a * c < 0 then none
  else
    let determinant := Real.sqrt (b * b - 4 * a * c)
    let t1 := (-b - determinant) / (2 * a)
    let t2 := (-b + determinant) / (2 * a)
    let t1d := self.get_length_at_inter (ray.point_at_t t1)
    let t2d := self.get_length_at_inter (ray.point_at_t t2)
    if t1 > 0 then
      if t1d ≤ self.length ∧ t1d > 0 then some t1
      else if t2d ≤ self.length ∧ t2d > 0 then some t2
      else none
    else if t2 < 0 then none
    else if t2d ≤ self.length ∧ t2d > 0 then some t2
    else none

/-- Surface normal (`get_normal_vec`). -/
def get_normal_vec (self : Cone) (intersection : Vec3) : Vec3 :=
  let d := self.get_length_at_inter intersection
  let vm := self.ray.point_at_t d
  (intersection - vm).normalize

/-- Texture coordinates on the cone (`get_texture_coords`). -/
def get_texture_coords (self : Cone) (intersection : Vec3) : TextureCoords :=
  let displacedIntersection :=
    intersection.translation (-self.ray.anchor.x) (-self.ray.anchor.y) (-self.ray.anchor.z)
  let rotation := self.ray.dir.to_align (Vec3.mk 0 1 0)
  let rotated := displacedIntersection.apply_matrix rotation
  ⟨self.r_at (self.get_length_at_inter intersection) * (1 + atan2 rotated.z rotated.x),
   rotated.y⟩

end Cone

/-- Closed set of primitive shapes (`enum Shape` in `src/shapes.rs`). -/
inductive Shape where
  | sphere : Sphere → Shape
  | cylinder : Cylinder → Shape
  | cone : Cone → Shape
  | plane : Plane → Shape
  | disc : Disc → Shape
  | triangle : Triangle → Shape

namespace Shape

/-- Variant dispatch of `get_intersection` (the `enum_dispatch` impl of
`ShapeCalculations` for `Shape`). -/
def get_intersection : Shape → Ray → Option ℝ
  | sphere s, ray => s.get_intersection ray
  | cylinder s, ray => s.get_intersection ray
  | cone s, ray => s.get_intersection ray
  | plane s, ray => s.get_intersection ray
  | disc s, ray => s.get_intersection ray
  | triangle s, ray => s.get_intersection ray

/-- Variant dispatch of `get_normal_vec`. -/
def get_normal_vec : Shape → Vec3 → Vec3
  | sphere s, p => s.get_normal_vec p
  | cylinder s, p => s.get_normal_vec p
  | cone s, p => s.get_normal_vec p
  | plane s, p => s.get_normal_vec p
  | disc s, p => s.get_normal_vec p
  | triangle s, p => s.get_normal_vec p

/-- Variant dispatch of `get_texture_coords`. -/
def get_texture_coords : Shape → Vec3 → TextureCoords
  | sphere s, p => s.get_texture_coords p
  | cylinder s, p => s.get_texture_coords p
  | cone s, p => s.get_texture_coords p
  | plane s, p => s.get_texture_coords p
  | disc s, p => s.get_texture_coords p
  | triangle s, p => s.get_texture_coords p

/-- Variant dispatch of `get_params`. -/
def get_params : Shape → ObjectParameters
  | sphere s => s.params
  | cylinder s => s.params
  | cone s => s.params
  | plane s => s.params
  | disc s => s.params
  | triangle s => s.params

/-- Base colour accessor (`ShapeCalculations::color`). -/
def color (s : Shape) : Color := s.get_params.color

/-- Ambient coefficient accessor (`ShapeCalculations::k_a`). -/
def k_a (s : Shape) : ℝ := s.get_params.k_a

/-- Diffuse coefficient accessor (`ShapeCalculations::k_d`). -/
def k_d (s : Shape) : ℝ := s.get_params.k_d

/-- Hardness exponent accessor (`ShapeCalculations::k_n`). -/
def k_n (s : Shape) : ℝ := s.get_params.k_n

/-- Specular coefficient accessor (`ShapeCalculations::k_s`). -/
def k_s (s : Shape) : ℝ := s.get_params.k_s

/-- Local opacity accessor (`ShapeCalculations::o1`). -/
def o1 (s : Shape) : ℝ := s.get_params.o1

/-- Reflection coefficient accessor (`ShapeCalculations::reflection`). -/
def reflection (s : Shape) : ℝ := s.get_params.reflection

/-- Transparency coefficient accessor (`ShapeCalculations::transparency`). -/
def transparency (s : Shape) : ℝ := s.get_params.transparency

/-- Checkerboard tile size accessor (`ShapeCalculations::checkerboard`). -/
def checkerboard (s : Shape) : ℝ := s.get_params.checkerboard

end Shape

/-- Checkerboard sampling (`checker_pattern` in `src/shapes.rs`): the code
floors `u / size`, reduces modulo `i32::MAX` and casts, then tests the parity
of the sum; parity is unchanged by the reduction for in-range values, and the
Rust `%` keeps the sign of the dividend (`Int.tmod`). -/
def checker_pattern (coords : TextureCoords) (object : Shape) : Color :=
  let intX : ℤ := Int.tmod ⌊coords.x / object.checkerboard⌋ 2147483647
  let intY : ℤ := Int.tmod ⌊coords.y / object.checkerboard⌋ 2147483647
  if Int.tmod (intX + intY) 2 = 0 then object.color else Color.BLACK

namespace Shape

/-- Colour at a surface point, checkerboarded when the tile size is positive
(`ShapeCalculations::get_color_at`). -/
def get_color_at (s : Shape) (point : Vec3) : Color :=
  if s.checkerboard > 0 then checker_pattern (s.get_texture_coords point) s
  else s.color

end Shape

/-- Point light (`Light` in `src/scene.rs`). -/
structure Light where
  position : Vec3
  intensity : ℝ
  c_1 : ℝ
  c_2 : ℝ
  c_3 : ℝ
  color : Color

namespace Light

/-- Attenuation factor `1 / (c1 + c2 d + c3 d^2)` capped at `1`
(`Light::get_attenuation`). -/
def get_attenuation (self : Light) (distance : ℝ) : ℝ :=
  min (1 / (self.c_1 + self.c_2 * distance + self.c_3 * distance * distance)) 1

/-- Unit vector from a surface point towards the light
(`Light::get_l_vec`). -/
def get_l_vec (self : Light) (intersection : Vec3) : Vec3 :=
  (self.position - intersection).normalize

end Light

/-- Scene: primitive list, light list, ambient term, background colour
(`Scene` in `src/scene.rs`). -/
structure Scene where
  objects : List Shape
  lights : List Light
  ambient : ℝ
  bg_color : Color
  ambient_color : Color

/-- Nearest-hit record (`struct Intersection` in `src/raytracer.rs`). -/
structure Intersection where
  object : Shape
  point : Vec3

/-- Accumulator step of the nearest-hit linear scan: the Rust loop keeps
`tmin` (initially infinite) together with the best intersection, replacing
them only on a strictly smaller `t`; the accumulator pairs the best shape
with its `t`, `none` standing for the initial infinite `tmin`. -/
def firstInterStep (ray : Ray) (acc : Option (Shape × ℝ)) (object : Shape) :
    Option (Shape × ℝ) :=
  match object.get_intersection ray with
  | none => acc
  | some t =>
    match acc with
    | none => some (object, t)
    | some (o', t') => if t < t' then some (object, t) else some (o', t')

/-- Linear scan over the scene's primitives keeping the minimal reported `t`
(`get_first_intersection` in `src/raytracer.rs`). -/
def get_first_intersection (ray : Ray) (scene : Scene) : Option Intersection :=
  (scene.objects.foldl (firstInterStep ray) none).map
    (fun best => ⟨best.1, ray.point_at_t best.2⟩)

/-- Transmitted direction for non-refractive transparency: the incident
direction unchanged (`get_refractive_dir` in `src/raytracer.rs`). -/
def get_refractive_dir (ray : Ray) : Vec3 := ray.dir

/-- Scan step of the shadow test over the primitive list: the first object
whose intersection lies strictly between `TOLERANCE` and the light distance
decides the factor; `recurse` is the shadow test one fuel level down. -/
def shadowScan (recurse : Ray → Option ℝ) (ray : Ray) (tLight : ℝ) :
    List Shape → Option ℝ
  | [] => some 1
  | object :: rest =>
    match object.get_intersection ray with
    | none => shadowScan recurse ray tLight rest
    | some t =>
      if t < tLight ∧ t > TOLERANCE then
        if object.transparency > 0 then
          (recurse (Ray.advance ⟨ray.point_at_t t, get_refractive_dir ray⟩ TOLERANCE)).map
            (fun rec_factor => object.transparency * rec_factor)
        else some 0
      else shadowScan recurse ray tLight rest

/-- Shadow test (`get_shadow_intersection` in `src/raytracer.rs`) with an
explicit fuel bounding the recursion through transparent occluders; `none`
only on fuel exhaustion. -/
def get_shadow_intersection : ℕ → Ray → Scene → Light → Option ℝ
  | 0, _, _, _ => none
  | n + 1, ray, scene, light =>
    shadowScan (fun r => get_shadow_intersection n r scene light) ray
      ((light.position - ray.anchor).norm) scene.objects

/-- Collects the per-element results of an `Option`-valued function over a
list, `none` when any element is `none`.  The Rust code computes the shadow
factor of every light in a plain iterator; `none` here only propagates the
fuel exhaustion of the modelled shadow recursion. -/
def traverseOption {α β : Type} (f : α → Option β) : List α → Option (List β)
  | [] => some []
  | a :: rest => (f a).bind fun b => (traverseOption f rest).map fun bs => b :: bs

/-- Local Phong colour of a hit (`get_color_pixel` in `src/raytracer.rs`,
the block computing `object_color` from the shadow factors, the attenuated
light factors and the `l` vectors; the Rust code precomputes the latter two
in lists indexed in step with the lights, which is inlined here as the same
per-light expressions).  The fuel feeds the shadow tests. -/
def local_object_color (n : ℕ) (ray : Ray) (scene : Scene) (inter : Intersection) :
    Option Color :=
  let normal := inter.object.get_normal_vec inter.point
  let backwardsVec := (-1 : ℝ) * ray.dir
  (traverseOption (fun light =>
      if SHADOWS then
        get_shadow_intersection n
          ((Ray.from_2_points inter.point light.position).advance TOLERANCE) scene light
      else some 0) scene.lights).map (fun shadowIntersections =>
    let totalIntensity :=
      ((colorSum ((scene.lights.zip shadowIntersections).map (fun ls =>
        let light := ls.1
        let lightFactor :=
          light.get_attenuation ((light.position - inter.point).norm) * light.intensity
        let intensity0 :=
          max ((light.get_l_vec inter.point).dot normal) 0 * lightFactor
            * inter.object.k_d
        let intensity := if SHADOWS then intensity0 * ls.2 else intensity0
        light.color * intensity))) +
        scene.ambient_color * scene.ambient * inter.object.k_a).cmin 1
    let rgbD := totalIntensity * inter.object.get_color_at inter.point
    let totalSpeculation :=
      (colorSum ((scene.lights.zip shadowIntersections).map (fun ls =>
        let light := ls.1
        let lightFactor :=
          light.get_attenuation ((light.position - inter.point).norm) * light.intensity
        let lVec := light.get_l_vec inter.point
        let reflectionVec := (2 : ℝ) * normal * (normal.dot lVec) - lVec
        let specular0 :=
          (max (reflectionVec.dot backwardsVec) 0) ^ inter.object.k_n
            * lightFactor * inter.object.k_s
        let specular := if SHADOWS then specular0 * ls.2 else specular0
        (light.color - rgbD) * specular))).cmin 1
    rgbD + totalSpeculation)

/-- Transparency branch of the recursive compositing step: when the
transparency coefficient exceeds `TOLERANCE` the resolver (`recurse`, one
fuel level down) is cast along the unchanged refractive direction advanced
by `TOLERANCE`; otherwise the local colour stands in. -/
def transparency_branch (recurse : Ray → ℝ → ℕ → Option Color) (ray : Ray)
    (inter : Intersection) (total_o1 : ℝ) (reflections : ℕ)
    (object_color : Color) : Option Color :=
  if inter.object.transparency > TOLERANCE then
    recurse (Ray.advance ⟨inter.point, get_refractive_dir ray⟩ TOLERANCE)
      (total_o1 * inter.object.transparency) reflections
  else some object_color

/-- Reflection branch of the recursive compositing step: active when the
reflection coefficient exceeds `TOLERANCE` and reflection budget remains;
otherwise the local colour stands in. -/
def reflection_branch (recurse : Ray → ℝ → ℕ → Option Color) (ray : Ray)
    (inter : Intersection) (total_o1 : ℝ) (reflections : ℕ)
    (object_color : Color) : Option Color :=
  let normal := inter.object.get_normal_vec inter.point
  if inter.object.reflection > TOLERANCE ∧ reflections > 0 then
    let reflectionDir := ray.dir - (2 : ℝ) * (ray.dir.dot normal) * normal
    recurse (Ray.advance ⟨inter.point, reflectionDir⟩ TOLERANCE)
      (total_o1 * inter.object.reflection) (reflections - 1)
  else some object_color

/-- Recursive colour resolver (`get_color_pixel` in `src/raytracer.rs`) with
an explicit fuel bounding the depth of the call tree (the Rust function has
no such bound); `none` appears only when the fuel is exhausted, so
`get_color_pixel n ray scene total_o1 reflections ≠ none` says the call tree
is at most `n` levels deep.  Every nested call (shadow tests included) runs
one fuel level down. -/
def get_color_pixel : ℕ → Ray → Scene → ℝ → ℕ → Option Color
  | 0, _, _, _, _ => none
  | n + 1, ray, scene, total_o1, reflections =>
    match get_first_intersection ray scene with
    | none => some scene.bg_color
    | some inter =>
      (local_object_color n ray scene inter).bind (fun object_color =>
        if inter.object.o1 < 1 ∧ total_o1 > TOLERANCE * TOLERANCE_MUL then
          (transparency_branch (fun r o k => get_color_pixel n r scene o k) ray inter
              total_o1 reflections object_color).bind (fun transparency_c =>
            (reflection_branch (fun r o k => get_color_pixel n r scene o k) ray inter
                total_o1 reflections object_color).bind (fun reflection_c =>
              some (inter.object.o1 * object_color
                + inter.object.reflection * reflection_c
                + inter.object.transparency * transparency_c)))
        else some object_color)

/-- Material parameter construction (`get_params` in `src/scene.rs`), taking
the raw configuration values (after the config getters' defaulting) and
producing the validated, clamped parameters; `none` models the `Err` case. -/
def scene_get_params (color : Color) (k_d_raw k_a_raw k_s_raw k_n_raw
    reflection_raw transparency_raw checkerboard_raw : ℝ) :
    Option ObjectParameters :=
  let k_d := clampR k_d_raw 0 1
  let k_a := clampR k_a_raw 0 1
  let k_s := clampR k_s_raw 0 1
  let k_n := max k_n_raw 1
  let reflection := clampR reflection_raw 0 1
  let transparency := clampR transparency_raw 0 1
  let checkerboard := max checkerboard_raw 0
  if reflection + transparency > 1 then none
  else some
    { color := color, k_a := k_a, k_d := k_d, k_n := k_n, k_s := k_s,
      o1 := 1 - (reflection + transparency), reflection := reflection,
      transparency := transparency, checkerboard := checkerboard }

end

/-- Framebuffer pixel with byte channels (`struct Pixel` in
`src/screen.rs`). -/
structure Pixel where
  r : ℕ
  g : ℕ
  b : ℕ
deriving DecidableEq

/-- Framebuffer abstraction (`ScreenContextManager` in `src/screen.rs`). -/
structure ScreenContextManager where
  framebuffer : List Pixel
  color : Pixel
  height : ℕ
  width : ℕ
deriving DecidableEq

namespace ScreenContextManager

/-- Plotting a single pixel writes the current drawing colour at index
`y * width + x` of the framebuffer (`ScreenContextManager::plot_pixel`). -/
def plot_pixel (self : ScreenContextManager) (x y : ℕ) : ScreenContextManager :=
  { self with framebuffer := self.framebuffer.set (y * self.width + x) self.color }

end ScreenContextManager

noncomputable section

/-! Componentwise unfolding lemmas for the vector and colour operator
instances. -/

@[simp] theorem Vec3.add_x (a b : Vec3) : (a + b).x = a.x + b.x := rfl

@[simp] theorem Vec3.add_y (a b : Vec3) : (a + b).y = a.y + b.y := rfl

@[simp] theorem Vec3.add_z (a b : Vec3) : (a + b).z = a.z + b.z := rfl

@[simp] theorem Vec3.sub_x (a b : Vec3) : (a - b).x = a.x - b.x := rfl

@[simp] theorem Vec3.sub_y (a b : Vec3) : (a - b).y = a.y - b.y := rfl

@[simp] theorem Vec3.sub_z (a b : Vec3) : (a - b).z = a.z - b.z := rfl

@[simp] theorem Vec3.smul_x (k : ℝ) (a : Vec3) : (k * a).x = a.x * k := rfl

@[simp] theorem Vec3.smul_y (k : ℝ) (a : Vec3) : (k * a).y = a.y * k := rfl

@[simp] theorem Vec3.smul_z (k : ℝ) (a : Vec3) : (k * a).z = a.z * k := rfl

@[simp] theorem Vec3.mulk_x (k : ℝ) (a : Vec3) : (a * k).x = a.x * k := rfl

@[simp] theorem Vec3.mulk_y (k : ℝ) (a : Vec3) : (a * k).y = a.y * k := rfl

@[simp] theorem Vec3.mulk_z (k : ℝ) (a : Vec3) : (a * k).z = a.z * k := rfl

@[simp] theorem Vec3.divk_x (k : ℝ) (a : Vec3) : (a / k).x = a.x / k := rfl

@[simp] theorem Vec3.divk_y (k : ℝ) (a : Vec3) : (a / k).y = a.y / k := rfl

@[simp] theorem Vec3.divk_z (k : ℝ) (a : Vec3) : (a / k).z = a.z / k := rfl

@[simp] theorem Color.add_r (a b : Color) : (a + b).r = clampR (a.r + b.r) 0 1 := rfl

@[simp] theorem Color.add_g (a b : Color) : (a + b).g = clampR (a.g + b.g) 0 1 := rfl

@[simp] theorem Color.add_b (a b : Color) : (a + b).b = clampR (a.b + b.b) 0 1 := rfl

@[simp] theorem Color.sub_r (a b : Color) : (a - b).r = clampR (a.r - b.r) 0 1 := rfl

@[simp] theorem Color.sub_g (a b : Color) : (a - b).g = clampR (a.g - b.g) 0 1 := rfl

@[simp] theorem Color.sub_b (a b : Color) : (a - b).b = clampR (a.b - b.b) 0 1 := rfl

@[simp] theorem Color.mul_r (a b : Color) : (a * b).r = clampR (a.r * b.r) 0 1 := rfl

@[simp] theorem Color.mul_g (a b : Color) : (a * b).g = clampR (a.g * b.g) 0 1 := rfl

@[simp] theorem Color.mul_b (a b : Color) : (a * b).b = clampR (a.b * b.b) 0 1 := rfl

@[simp] theorem Color.smul_r (k : ℝ) (a : Color) : (k * a).r = a.r * k := rfl

@[simp] theorem Color.smul_g (k : ℝ) (a : Color) : (k * a).g = a.g * k := rfl

@[simp] theorem Color.smul_b (k : ℝ) (a : Color) : (k * a).b = a.b * k := rfl

@[simp] theorem Color.mulk_r (k : ℝ) (a : Color) : (a * k).r = a.r * k := rfl

@[simp] theorem Color.mulk_g (k : ℝ) (a : Color) : (a * k).g = a.g * k := rfl

@[simp] theorem Color.mulk_b (k : ℝ) (a : Color) : (a * k).b = a.b * k := rfl

@[ext] theorem Vec3.ext_components (a b : Vec3) (hx : a.x = b.x) (hy : a.y = b.y)
    (hz : a.z = b.z) : a = b := by
  cases a
  cases b
  simp_all

@[ext] theorem Color.ext_channels (a b : Color) (hr : a.r = b.r) (hg : a.g = b.g)
    (hb : a.b = b.b) : a = b := by
  cases a
  cases b
  simp_all

/-- Evaluation helper: the square root of a literal perfect square. -/
theorem sqrt_eval (a b : ℝ) (hb : 0 ≤ b) (h : a = b ^ 2) : Real.sqrt a = b := by
  rw [h, Real.sqrt_sq hb]

/-- Evaluation helper: the canonical up axis is already normalized. -/
theorem normalize_unit_y : (Vec3.mk 0 1 0).normalize = Vec3.mk 0 1 0 := by
  ext <;> norm_num [Vec3.normalize, Vec3.norm]

/-- Evaluation helper: the canonical z axis is already normalized. -/
theorem normalize_unit_z : (Vec3.mk 0 0 1).normalize = Vec3.mk 0 0 1 := by
  ext <;> norm_num [Vec3.normalize, Vec3.norm]

/-- Evaluation helper: aligning the up axis with itself produces the
identity matrix (the Rodrigues cross product vanishes). -/
theorem to_align_unit_y_self : Vec3.to_align (Vec3.mk 0 1 0) (Vec3.mk 0 1 0) = I3 := by
  rw [Vec3.to_align]
  simp [normalize_unit_y, Vec3.dot, Vec3.cross, TOLERANCE, Vec3.skewOf, Vec3.skew2Of,
    matrix_sum, matrix_mul_k, I3]

@[simp] theorem Vec3.mk_add_mk (x1 y1 z1 x2 y2 z2 : ℝ) :
    Vec3.mk x1 y1 z1 + Vec3.mk x2 y2 z2 = ⟨x1 + x2, y1 + y2, z1 + z2⟩ := rfl

@[simp] theorem Vec3.mk_sub_mk (x1 y1 z1 x2 y2 z2 : ℝ) :
    Vec3.mk x1 y1 z1 - Vec3.mk x2 y2 z2 = ⟨x1 - x2, y1 - y2, z1 - z2⟩ := rfl

@[simp] theorem Vec3.mk_mulk (x y z k : ℝ) :
    Vec3.mk x y z * k = ⟨x * k, y * k, z * k⟩ := rfl

@[simp] theorem Vec3.mulk_mk (x y z k : ℝ) :
    k * Vec3.mk x y z = ⟨x * k, y * k, z * k⟩ := rfl

@[simp] theorem Vec3.mk_divk (x y z k : ℝ) :
    Vec3.mk x y z / k = ⟨x / k, y / k, z / k⟩ := rfl

/-- Shared dummy material used by concrete witness scenes: opaque red. -/
def dummyParams : ObjectParameters :=
  { color := ⟨1, 0, 0⟩, k_a := 0, k_d := 0, k_n := 1, k_s := 0,
    o1 := 1, reflection := 0, transparency := 0, checkerboard := 0 }

/-- Concrete unit sphere at the origin used by witnesses. -/
def unitSphere : Sphere := ⟨⟨0, 0, 0⟩, 1, dummyParams⟩

/-- CLAIM C1.  Sphere intersection implements the spec's case analysis: a
`NaN` discriminant (negative radicand) gives no intersection; otherwise the
near root `t1` is returned when `t1 > 0`; else a negative far root `t2`
gives no intersection; else `t2` (the camera-inside-sphere exit point) is
returned; and a ray anchored strictly inside the sphere never returns
`none`. -/
theorem c1_sphere_intersection_cases (s : Sphere) (ray : Ray) :
    (Sphere.disc s ray < 0 → s.get_intersection ray = none)
    ∧ (0 ≤ Sphere.disc s ray → Sphere.t1 s ray > 0 →
        s.get_intersection ray = some (Sphere.t1 s ray))
    ∧ (0 ≤ Sphere.disc s ray → ¬ Sphere.t1 s ray > 0 → Sphere.t2 s ray < 0 →
        s.get_intersection ray = none)
    ∧ (0 ≤ Sphere.disc s ray → ¬ Sphere.t1 s ray > 0 → ¬ Sphere.t2 s ray < 0 →
        s.get_intersection ray = some (Sphere.t2 s ray))
    ∧ ((ray.anchor - s.center).dot (ray.anchor - s.center) < s.r * s.r →
        (s.get_intersection ray).isSome = true) := by
  have hqc : (ray.anchor - s.center).dot (ray.anchor - s.center) - s.r * s.r
      = Sphere.qc s ray := by
    simp [Vec3.dot, Sphere.qc]
    ring
  refine ⟨?_, ?_, ?_, ?_, ?_⟩
  · intro h
    simp [Sphere.get_intersection, h]
  · intro h h1
    simp [Sphere.get_intersection, not_lt.mpr h, h1]
  · intro h h1 h2
    simp [Sphere.get_intersection, not_lt.mpr h, h1, h2]
  · intro h h1 h2
    simp [Sphere.get_intersection, not_lt.mpr h, h1, h2]
  · intro hin
    have hc : Sphere.qc s ray < 0 := by
      rw [← hqc]; linarith
    have hdisc : 0 ≤ Sphere.disc s ray := by
      have := mul_self_nonneg (Sphere.qb s ray)
      unfold Sphere.disc
      nlinarith
    have hd2 : Real.sqrt (Sphere.disc s ray) * Real.sqrt (Sphere.disc s ray)
        = Sphere.disc s ray := Real.mul_self_sqrt hdisc
    have hdnn : 0 ≤ Real.sqrt (Sphere.disc s ray) := Real.sqrt_nonneg _
    have hdd : Sphere.disc s ray
        = Sphere.qb s ray * Sphere.qb s ray - 4 * Sphere.qc s ray := rfl
    have ht2 : 0 ≤ Sphere.t2 s ray := by
      unfold Sphere.t2
      have hgt : Sphere.qb s ray ≤ Real.sqrt (Sphere.disc s ray) := by
        by_contra hb
        push_neg at hb
        have hsq := mul_self_lt_mul_self hdnn hb
        rw [hd2, hdd] at hsq
        linarith
      linarith
    by_cases h1 : Sphere.t1 s ray > 0
    · simp [Sphere.get_intersection, not_lt.mpr hdisc, h1]
    · simp [Sphere.get_intersection, not_lt.mpr hdisc, h1, not_lt.mpr ht2]

/-- Witness for C1: the testable ray from `(0, 0, -10)` towards the unit
sphere at the origin hits at `t = 9`, and a ray anchored at the centre of
the unit sphere (strictly inside) reports an intersection. -/
theorem c1_sphere_intersection_cases_witness :
    Sphere.get_intersection unitSphere ⟨⟨0, 0, -10⟩, ⟨0, 0, 1⟩⟩ = some 9
    ∧ (Sphere.get_intersection unitSphere ⟨⟨0, 0, 0⟩, ⟨1, 0, 0⟩⟩).isSome = true := by
  have h4 : Real.sqrt 4 = 2 := by
    rw [show (4 : ℝ) = 2 ^ 2 by norm_num, Real.sqrt_sq (by norm_num)]
  have hdisc : Sphere.disc unitSphere ⟨⟨0, 0, -10⟩, ⟨0, 0, 1⟩⟩ = 4 := by
    simp [Sphere.disc, Sphere.qb, Sphere.qc, unitSphere]
    norm_num
  have ht1 : Sphere.t1 unitSphere ⟨⟨0, 0, -10⟩, ⟨0, 0, 1⟩⟩ = 9 := by
    rw [Sphere.t1, hdisc, h4]
    simp [Sphere.qb, unitSphere]
    norm_num
  constructor
  · have := (c1_sphere_intersection_cases unitSphere ⟨⟨0, 0, -10⟩, ⟨0, 0, 1⟩⟩).2.1
      (by rw [hdisc]; norm_num) (by rw [ht1]; norm_num)
    rw [this, ht1]
  · exact (c1_sphere_intersection_cases unitSphere ⟨⟨0, 0, 0⟩, ⟨1, 0, 0⟩⟩).2.2.2.2
      (by norm_num [Vec3.dot, unitSphere])

/-- Concrete cone for the C2 failing input: apex at the origin, axis the up
axis, length `10`, slope `1` (`k1 = k2 = 1`). -/
def coneC2 : Cone := Cone.new ⟨0, 0, 0⟩ ⟨0, 1, 0⟩ 10 1 1 dummyParams

/-- Concrete unit-direction ray for the C2 failing input: anchored at
`(2, 1, 0)` between the cone's nappes, heading down-and-right. -/
def rayC2 : Ray := ⟨⟨2, 1, 0⟩, ⟨3/5, -4/5, 0⟩⟩

/-- CLAIM C2 (code bug).  The common contract says `get_intersection`
returns the smallest strictly-positive `t` or none, so any returned `t` is
positive; but the cone's fallback branch (near root positive yet axially out
of range) returns the far root without re-checking its sign, and for this
ray — whose forward hit is axially out of range while the backward extension
meets the upper nappe in range — the code returns the negative parameter
`t = -5/7`, an intersection behind the ray's anchor. -/
theorem c2_cone_returns_negative_t :
    Cone.get_intersection coneC2 rayC2 = some (-(5/7) : ℝ) ∧ (-(5/7) : ℝ) < 0 := by
  have hcone : coneC2 = ⟨⟨⟨0, 0, 0⟩, ⟨0, 1, 0⟩⟩, 10, dummyParams, 1⟩ := by
    simp [coneC2, Cone.new, normalize_unit_y]
  constructor
  · rw [hcone, Cone.get_intersection]
    simp only [to_align_unit_y_self, rayC2, Vec3.translation, Vec3.apply_matrix, I3,
      Vec3.add_x, Vec3.add_y, Vec3.add_z]
    norm_num [sqrt_eval 484 22 (by norm_num) (by norm_num),
      sqrt_eval 25 5 (by norm_num) (by norm_num),
      Cone.get_length_at_inter, Ray.point_at_t, Vec3.dot]
  · norm_num

/-- Scan lemma: once the nearest-hit accumulator holds a candidate it is
never dropped, only replaced. -/
theorem firstInterFold_ne_none (ray : Ray) (l : List Shape) :
    ∀ p : Shape × ℝ, l.foldl (firstInterStep ray) (some p) ≠ none := by
  induction l with
  | nil => intro p h; exact Option.noConfusion h
  | cons o rest ih =>
    intro p
    rw [List.foldl_cons]
    cases h : o.get_intersection ray with
    | none => simpa [firstInterStep, h] using ih p
    | some t =>
      by_cases hlt : t < p.2
      · simpa [firstInterStep, h, hlt] using ih (o, t)
      · simpa [firstInterStep, h, hlt] using ih p

/-- Scan lemma: the nearest-hit accumulator stays empty exactly when every
primitive reports no intersection. -/
theorem firstInterFold_none_iff (ray : Ray) (l : List Shape) :
    l.foldl (firstInterStep ray) none = none
      ↔ ∀ o ∈ l, o.get_intersection ray = none := by
  induction l with
  | nil => simp
  | cons o rest ih =>
    rw [List.foldl_cons]
    cases h : o.get_intersection ray with
    | none =>
      simp only [firstInterStep, h]
      rw [ih]
      constructor
      · intro hall
        intro o' ho'
        rcases List.mem_cons.mp ho' with h1 | h1
        · rw [h1]; exact h
        · exact hall o' h1
      · intro hall o' ho'
        exact hall o' (List.mem_cons_of_mem _ ho')
    | some t =>
      simp only [firstInterStep, h]
      constructor
      · intro habs
        exact absurd habs (firstInterFold_ne_none ray rest _)
      · intro hall
        have := hall o (List.mem_cons_self o rest)
        rw [this] at h
        exact Option.noConfusion h

/-- Scan lemma: starting from the candidate `p`, the scan either keeps `p`
because no primitive in the remaining list beats it strictly, or finishes on
the earliest primitive attaining a strictly better minimal `t`. -/
theorem firstInterFold_some_spec (ray : Ray) (l : List Shape) :
    ∀ p q : Shape × ℝ, l.foldl (firstInterStep ray) (some p) = some q →
      (q = p ∧ ∀ o ∈ l, ∀ t', o.get_intersection ray = some t' → p.2 ≤ t')
      ∨ (∃ l1 l2, l = l1 ++ q.1 :: l2 ∧ q.1.get_intersection ray = some q.2
          ∧ q.2 < p.2
          ∧ (∀ o ∈ l1, ∀ t', o.get_intersection ray = some t' → q.2 < t')
          ∧ (∀ o ∈ l2, ∀ t', o.get_intersection ray = some t' → q.2 ≤ t')) := by
  induction l with
  | nil =>
    intro p q h
    rw [List.foldl_nil] at h
    left
    exact ⟨(Option.some.inj h).symm ▸ rfl, by simp⟩
  | cons o rest ih =>
    intro p q h
    rw [List.foldl_cons] at h
    cases ho : o.get_intersection ray with
    | none =>
      simp only [firstInterStep, ho] at h
      rcases ih p q h with ⟨hq, hall⟩ | ⟨l1, l2, hsplit, hhit, hlt, h1, h2⟩
      · left
        refine ⟨hq, ?_⟩
        intro o' ho' t' ht'
        rcases List.mem_cons.mp ho' with hm | hm
        · rw [hm, ho] at ht'; exact Option.noConfusion ht'
        · exact hall o' hm t' ht'
      · right
        refine ⟨o :: l1, l2, by rw [hsplit, List.cons_append], hhit, hlt, ?_, h2⟩
        intro o' ho' t' ht'
        rcases List.mem_cons.mp ho' with hm | hm
        · rw [hm, ho] at ht'; exact Option.noConfusion ht'
        · exact h1 o' hm t' ht'
    | some t =>
      by_cases hlt : t < p.2
      · simp only [firstInterStep, ho, if_pos hlt] at h
        rcases ih (o, t) q h with ⟨hq, hall⟩ | ⟨l1, l2, hsplit, hhit, hlt2, h1, h2⟩
        · right
          refine ⟨[], rest, ?_, ?_, ?_, by simp, ?_⟩
          · rw [hq]; simp
          · rw [hq]; exact ho
          · rw [hq]; exact hlt
          · intro o' ho' t' ht'
            have := hall o' ho' t' ht'
            rw [hq]
            exact this
        · right
          refine ⟨o :: l1, l2, by rw [hsplit, List.cons_append], hhit, lt_trans hlt2 hlt, ?_, h2⟩
          intro o' ho' t' ht'
          rcases List.mem_cons.mp ho' with hm | hm
          · rw [hm, ho] at ht'
            have := Option.some.inj ht'
            rw [← this]
            exact hlt2
          · exact h1 o' hm t' ht'
      · simp only [firstInterStep, ho, if_neg hlt] at h
        push_neg at hlt
        rcases ih p q h with ⟨hq, hall⟩ | ⟨l1, l2, hsplit, hhit, hlt2, h1, h2⟩
        · left
          refine ⟨hq, ?_⟩
          intro o' ho' t' ht'
          rcases List.mem_cons.mp ho' with hm | hm
          · rw [hm, ho] at ht'
            have := Option.some.inj ht'
            rw [← this]
            exact hlt
          · exact hall o' hm t' ht'
        · right
          refine ⟨o :: l1, l2, by rw [hsplit, List.cons_append], hhit, hlt2, ?_, h2⟩
          intro o' ho' t' ht'
          rcases List.mem_cons.mp ho' with hm | hm
          · rw [hm, ho] at ht'
            have := Option.some.inj ht'
            rw [← this]
            exact lt_of_lt_of_le hlt2 hlt
          · exact h1 o' hm t' ht'

/-- Scan lemma: from the empty accumulator the result is the earliest
primitive attaining the minimal reported `t`. -/
theorem firstInterFold_start_spec (ray : Ray) (l : List Shape) (q : Shape × ℝ) :
    l.foldl (firstInterStep ray) none = some q →
      ∃ l1 l2, l = l1 ++ q.1 :: l2 ∧ q.1.get_intersection ray = some q.2
        ∧ (∀ o ∈ l1, ∀ t', o.get_intersection ray = some t' → q.2 < t')
        ∧ (∀ o ∈ l2, ∀ t', o.get_intersection ray = some t' → q.2 ≤ t') := by
  induction l with
  | nil => intro h; exact Option.noConfusion h
  | cons o rest ih =>
    intro h
    rw [List.foldl_cons] at h
    cases ho : o.get_intersection ray with
    | none =>
      simp only [firstInterStep, ho] at h
      rcases ih h with ⟨l1, l2, hsplit, hhit, h1, h2⟩
      refine ⟨o :: l1, l2, by rw [hsplit, List.cons_append], hhit, ?_, h2⟩
      intro o' ho' t' ht'
      rcases List.mem_cons.mp ho' with hm | hm
      · rw [hm, ho] at ht'; exact Option.noConfusion ht'
      · exact h1 o' hm t' ht'
    | some t =>
      simp only [firstInterStep, ho] at h
      rcases firstInterFold_some_spec ray rest (o, t) q h with ⟨hq, hall⟩ |
        ⟨l1, l2, hsplit, hhit, hlt2, h1, h2⟩
      · refine ⟨[], rest, ?_, ?_, by simp, ?_⟩
        · rw [hq]; simp
        · rw [hq]; exact ho
        · intro o' ho' t' ht'
          have := hall o' ho' t' ht'
          rw [hq]
          exact this
      · refine ⟨o :: l1, l2, by rw [hsplit, List.cons_append], hhit, ?_, h2⟩
        intro o' ho' t' ht'
        rcases List.mem_cons.mp ho' with hm | hm
        · rw [hm, ho] at ht'
          have := Option.some.inj ht'
          rw [← this]
          exact hlt2
        · exact h1 o' hm t' ht'

/-- CLAIM C3.  Nearest-hit search is a linear scan keeping the minimal
reported `t`: when the result is empty every primitive reported none (and
then the resolver returns the scene's background colour); when a hit is
found, the scene's list splits around the winning primitive so that every
earlier primitive reports a strictly larger `t` (first found at minimal `t`
wins, strict comparison) and every later primitive reports a `t` at least as
large. -/
theorem c3_nearest_hit_scan (ray : Ray) (scene : Scene) :
    (get_first_intersection ray scene = none ↔
        ∀ o ∈ scene.objects, o.get_intersection ray = none)
    ∧ (∀ inter, get_first_intersection ray scene = some inter →
        ∃ t : ℝ, ∃ l1 l2 : List Shape,
          scene.objects = l1 ++ inter.object :: l2
          ∧ inter.object.get_intersection ray = some t
          ∧ inter.point = ray.point_at_t t
          ∧ (∀ o ∈ l1, ∀ t', o.get_intersection ray = some t' → t < t')
          ∧ (∀ o ∈ l2, ∀ t', o.get_intersection ray = some t' → t ≤ t'))
    ∧ (∀ n total_o1 reflections, get_first_intersection ray scene = none →
        get_color_pixel (n + 1) ray scene total_o1 reflections
          = some scene.bg_color) := by
  refine ⟨?_, ?_, ?_⟩
  · rw [get_first_intersection, Option.map_eq_none']
    exact firstInterFold_none_iff ray scene.objects
  · intro inter hinter
    rw [get_first_intersection] at hinter
    rcases Option.map_eq_some'.mp hinter with ⟨q, hq, hmap⟩
    subst hmap
    rcases firstInterFold_start_spec ray scene.objects q hq with
      ⟨l1, l2, hsplit, hhit, h1, h2⟩
    exact ⟨q.2, l1, l2, hsplit, hhit, rfl, h1, h2⟩
  · intro n total_o1 reflections hn
    rw [get_color_pixel, hn]

/-- Evaluation helper: a unit sphere at the origin, whatever its material,
is hit by the axial ray from `(0, 0, -10)` at `t = 9`. -/
theorem sphere_hit_t9 (p : ObjectParameters) :
    Sphere.get_intersection ⟨⟨0, 0, 0⟩, 1, p⟩ ⟨⟨0, 0, -10⟩, ⟨0, 0, 1⟩⟩ = some 9 := by
  have h4 : Real.sqrt 4 = 2 := sqrt_eval 4 2 (by norm_num) (by norm_num)
  have hdisc : Sphere.disc ⟨⟨0, 0, 0⟩, 1, p⟩ ⟨⟨0, 0, -10⟩, ⟨0, 0, 1⟩⟩ = 4 := by
    norm_num [Sphere.disc, Sphere.qb, Sphere.qc]
  have ht1 : Sphere.t1 ⟨⟨0, 0, 0⟩, 1, p⟩ ⟨⟨0, 0, -10⟩, ⟨0, 0, 1⟩⟩ = 9 := by
    rw [Sphere.t1, hdisc, h4]
    norm_num [Sphere.qb]
  simp [Sphere.get_intersection, hdisc, ht1]

/-- Shared translucent blue material for witness scenes. -/
def blueParams : ObjectParameters :=
  { color := ⟨0, 0, 1⟩, k_a := 0, k_d := 0, k_n := 1, k_s := 0,
    o1 := 1, reflection := 0, transparency := 0, checkerboard := 0 }

/-- Shared empty witness scene with a green background. -/
def emptyScene : Scene := ⟨[], [], 0, ⟨0, 1, 0⟩, ⟨1, 1, 1⟩⟩

/-- Witness scene for C3: two coincident unit spheres (red first, blue
second), so both report the same minimal `t = 9`. -/
def tieScene : Scene :=
  ⟨[Shape.sphere unitSphere, Shape.sphere ⟨⟨0, 0, 0⟩, 1, blueParams⟩], [], 0,
    ⟨0, 1, 0⟩, ⟨1, 1, 1⟩⟩

/-- Witness for C3: on the tied scene the first-listed red sphere wins the
tie at `t = 9`, the winner satisfies the minimal-scan characterization, and
on the empty scene the resolver returns the background colour. -/
theorem c3_nearest_hit_scan_witness :
    get_first_intersection ⟨⟨0, 0, -10⟩, ⟨0, 0, 1⟩⟩ tieScene
      = some ⟨Shape.sphere unitSphere, ⟨0, 0, -1⟩⟩
    ∧ (∃ t : ℝ, ∃ l1 l2 : List Shape,
        tieScene.objects = l1 ++ Shape.sphere unitSphere :: l2
        ∧ (Shape.sphere unitSphere).get_intersection ⟨⟨0, 0, -10⟩, ⟨0, 0, 1⟩⟩ = some t
        ∧ (Vec3.mk 0 0 (-1)) = Ray.point_at_t ⟨⟨0, 0, -10⟩, ⟨0, 0, 1⟩⟩ t
        ∧ (∀ o ∈ l1, ∀ t', o.get_intersection ⟨⟨0, 0, -10⟩, ⟨0, 0, 1⟩⟩ = some t' → t < t')
        ∧ (∀ o ∈ l2, ∀ t', o.get_intersection ⟨⟨0, 0, -10⟩, ⟨0, 0, 1⟩⟩ = some t' → t ≤ t'))
    ∧ get_color_pixel 1 ⟨⟨0, 0, -10⟩, ⟨0, 0, 1⟩⟩ emptyScene 1 5
        = some emptyScene.bg_color := by
  have hpoint : Ray.point_at_t ⟨⟨0, 0, -10⟩, ⟨0, 0, 1⟩⟩ 9 = Vec3.mk 0 0 (-1) := by
    ext <;> norm_num [Ray.point_at_t]
  have heval : get_first_intersection ⟨⟨0, 0, -10⟩, ⟨0, 0, 1⟩⟩ tieScene
      = some ⟨Shape.sphere unitSphere, ⟨0, 0, -1⟩⟩ := by
    rw [get_first_intersection]
    simp only [tieScene, unitSphere, List.foldl_cons, List.foldl_nil, firstInterStep,
      Shape.get_intersection, sphere_hit_t9]
    norm_num [hpoint, unitSphere]
  refine ⟨heval, ?_, ?_⟩
  · exact (c3_nearest_hit_scan ⟨⟨0, 0, -10⟩, ⟨0, 0, 1⟩⟩ tieScene).2.1
      ⟨Shape.sphere unitSphere, ⟨0, 0, -1⟩⟩ heval
  · exact (c3_nearest_hit_scan ⟨⟨0, 0, -10⟩, ⟨0, 0, 1⟩⟩ emptyScene).2.2 0 1 5
      (by simp [get_first_intersection, emptyScene])

/-- Helper: clamping into `[0, 1]` lands in `[0, 1]`. -/
theorem clampR_unit_mem (x : ℝ) : 0 ≤ clampR x 0 1 ∧ clampR x 0 1 ≤ 1 :=
  ⟨le_min (le_max_right x 0) zero_le_one, min_le_right _ _⟩

/-- CLAIM C4.  Material parameter construction fails exactly when the
clamped reflection and transparency coefficients sum above `1`; on success
the derived local opacity is `1` minus that sum, all coefficients except
`k_n` are clamped into `[0, 1]` and `k_n` is at least `1`; in particular
reflection `0.3` with transparency `0.2` yields opacity exactly `0.5`, while
reflection `0.7` with transparency `0.5` fails. -/
theorem c4_material_params (color : Color) (kd ka ks kn refl transp cb : ℝ) :
    (scene_get_params color kd ka ks kn refl transp cb = none
        ↔ clampR refl 0 1 + clampR transp 0 1 > 1)
    ∧ (∀ p, scene_get_params color kd ka ks kn refl transp cb = some p →
        p.o1 = 1 - (p.reflection + p.transparency)
        ∧ p.reflection = clampR refl 0 1
        ∧ p.transparency = clampR transp 0 1
        ∧ 0 ≤ p.k_d ∧ p.k_d ≤ 1
        ∧ 0 ≤ p.k_a ∧ p.k_a ≤ 1
        ∧ 0 ≤ p.k_s ∧ p.k_s ≤ 1
        ∧ 0 ≤ p.reflection ∧ p.reflection ≤ 1
        ∧ 0 ≤ p.transparency ∧ p.transparency ≤ 1
        ∧ 1 ≤ p.k_n)
    ∧ (∀ p, scene_get_params color kd ka ks kn 0.3 0.2 cb = some p → p.o1 = 0.5)
    ∧ scene_get_params color kd ka ks kn 0.7 0.5 cb = none := by
  refine ⟨?_, ?_, ?_, ?_⟩
  · rw [scene_get_params]
    by_cases h : clampR refl 0 1 + clampR transp 0 1 > 1
    · simp [h]
    · simp [h]
  · intro p hp
    rw [scene_get_params] at hp
    by_cases h : clampR refl 0 1 + clampR transp 0 1 > 1
    · rw [if_pos h] at hp
      exact Option.noConfusion hp
    · rw [if_neg h] at hp
      have hp' := Option.some.inj hp
      rw [← hp']
      refine ⟨by ring, rfl, rfl, (clampR_unit_mem kd).1, (clampR_unit_mem kd).2,
        (clampR_unit_mem ka).1, (clampR_unit_mem ka).2,
        (clampR_unit_mem ks).1, (clampR_unit_mem ks).2,
        (clampR_unit_mem refl).1, (clampR_unit_mem refl).2,
        (clampR_unit_mem transp).1, (clampR_unit_mem transp).2,
        le_max_right kn 1⟩
  · intro p hp
    rw [scene_get_params] at hp
    rw [if_neg (by norm_num [clampR])] at hp
    have hp' := Option.some.inj hp
    rw [← hp']
    norm_num [clampR]
  · rw [scene_get_params]
    rw [if_pos (by norm_num [clampR])]

/-- Witness for C4: concrete raw values `k_d = 0.5`, `k_a = 2`, `k_s = 0.5`,
`k_n = 0.5`, reflection `0.3`, transparency `0.2` build parameters whose
opacity is exactly `0.5` with `k_n` clamped up to `1`, while raising the
reflection and transparency to `0.7` and `0.5` fails validation. -/
theorem c4_material_params_witness :
    (∃ p, scene_get_params ⟨1, 0, 0⟩ 0.5 2 0.5 0.5 0.3 0.2 0 = some p
      ∧ p.o1 = 0.5 ∧ p.o1 = 1 - (p.reflection + p.transparency)
      ∧ p.k_a ≤ 1 ∧ 1 ≤ p.k_n)
    ∧ scene_get_params ⟨1, 0, 0⟩ 0.5 2 0.5 0.5 0.7 0.5 0 = none := by
  have heval : scene_get_params ⟨1, 0, 0⟩ 0.5 2 0.5 0.5 0.3 0.2 0
      = some { color := ⟨1, 0, 0⟩, k_a := 1, k_d := 0.5, k_n := 1, k_s := 0.5,
               o1 := 0.5, reflection := 0.3, transparency := 0.2,
               checkerboard := 0 } := by
    rw [scene_get_params, if_neg (by norm_num [clampR])]
    norm_num [clampR]
  obtain ⟨h1, _, _, _, _, _, hka1, _, _, _, _, _, _, hkn⟩ :=
    (c4_material_params ⟨1, 0, 0⟩ 0.5 2 0.5 0.5 0.3 0.2 0).2.1 _ heval
  have ho1 := (c4_material_params ⟨1, 0, 0⟩ 0.5 2 0.5 0.5 0.3 0.2 0).2.2.1 _ heval
  exact ⟨⟨_, heval, ho1, h1, hka1, hkn⟩,
    (c4_material_params ⟨1, 0, 0⟩ 0.5 2 0.5 0.5 0.7 0.5 0).2.2.2⟩

/-- Helper: normalizing a vector of nonzero norm gives a unit vector (its
dot product with itself is `1`). -/
theorem normalize_dot_self (u : Vec3) (hu : u.norm ≠ 0) :
    u.normalize.dot u.normalize = 1 := by
  have hs0 : 0 ≤ u.x * u.x + u.y * u.y + u.z * u.z :=
    add_nonneg (add_nonneg (mul_self_nonneg _) (mul_self_nonneg _)) (mul_self_nonneg _)
  have hss : u.norm * u.norm = u.x * u.x + u.y * u.y + u.z * u.z :=
    Real.mul_self_sqrt hs0
  have hsne : u.x * u.x + u.y * u.y + u.z * u.z ≠ 0 := by
    intro h
    apply hu
    rw [Vec3.norm, h, Real.sqrt_zero]
  simp only [Vec3.normalize, Vec3.dot, Vec3.divk_x, Vec3.divk_y, Vec3.divk_z]
  rw [show u.x / u.norm * (u.x / u.norm) + u.y / u.norm * (u.y / u.norm)
      + u.z / u.norm * (u.z / u.norm)
      = (u.x * u.x + u.y * u.y + u.z * u.z) / (u.norm * u.norm) by ring]
  rw [hss]
  exact div_self hsne

/-- Helper: Rodrigues' rotation matrix `I + K + K^2 / (1 + c)` built from
two unit vectors maps the first onto the second whenever `1 + c` is
nonzero. -/
theorem rodrigues_maps (a1 a2 a3 b1 b2 b3 : ℝ)
    (hA : a1 * a1 + a2 * a2 + a3 * a3 = 1)
    (hB : b1 * b1 + b2 * b2 + b3 * b3 = 1)
    (hc : 1 + (a1 * b1 + a2 * b2 + a3 * b3) ≠ 0) :
    Vec3.apply_matrix ⟨a1, a2, a3⟩
      (matrix_sum I3 (matrix_sum
        (Vec3.skewOf (Vec3.cross ⟨a1, a2, a3⟩ ⟨b1, b2, b3⟩))
        (matrix_mul_k (Vec3.skew2Of (Vec3.cross ⟨a1, a2, a3⟩ ⟨b1, b2, b3⟩))
          (1 / (1 + Vec3.dot ⟨a1, a2, a3⟩ ⟨b1, b2, b3⟩)))))
      = ⟨b1, b2, b3⟩ := by
  ext
  · simp only [Vec3.apply_matrix, matrix_sum, matrix_mul_k, Vec3.skewOf, Vec3.skew2Of,
      Vec3.cross, Vec3.dot, I3]
    field_simp
    linear_combination (b1 * (1 + (a1 * b1 + a2 * b2 + a3 * b3)) - a1) * hA
      + (-(a1 * (a1 * a1 + a2 * a2 + a3 * a3))) * hB
  · simp only [Vec3.apply_matrix, matrix_sum, matrix_mul_k, Vec3.skewOf, Vec3.skew2Of,
      Vec3.cross, Vec3.dot, I3]
    field_simp
    linear_combination (b2 * (1 + (a1 * b1 + a2 * b2 + a3 * b3)) - a2) * hA
      + (-(a2 * (a1 * a1 + a2 * a2 + a3 * a3))) * hB
  · simp only [Vec3.apply_matrix, matrix_sum, matrix_mul_k, Vec3.skewOf, Vec3.skew2Of,
      Vec3.cross, Vec3.dot, I3]
    field_simp
    linear_combination (b3 * (1 + (a1 * b1 + a2 * b2 + a3 * b3)) - a3) * hA
      + (-(a3 * (a1 * a1 + a2 * a2 + a3 * a3))) * hB

/-- CLAIM C6.  For direction vectors of nonzero norm, the rotate-to-align
operation returns the identity matrix whenever the normalized directions are
antiparallel within tolerance (never an error), and otherwise returns the
Rodrigues rotation matrix `I + K + K^2 / (1 + c)` of the normalized
directions, which maps the first normalized direction exactly onto the
second. -/
theorem c6_to_align_rotation (u w : Vec3) (hu : u.norm ≠ 0) (hw : w.norm ≠ 0) :
    (|u.normalize.dot w.normalize + 1| < TOLERANCE → u.to_align w = I3)
    ∧ (¬ |u.normalize.dot w.normalize + 1| < TOLERANCE →
        u.to_align w = matrix_sum I3 (matrix_sum
          (Vec3.skewOf (u.normalize.cross w.normalize))
          (matrix_mul_k (Vec3.skew2Of (u.normalize.cross w.normalize))
            (1 / (1 + u.normalize.dot w.normalize))))
        ∧ u.normalize.apply_matrix (u.to_align w) = w.normalize) := by
  constructor
  · intro h
    simp only [Vec3.to_align]
    rw [if_pos h]
  · intro h
    have heq : u.to_align w = matrix_sum I3 (matrix_sum
        (Vec3.skewOf (u.normalize.cross w.normalize))
        (matrix_mul_k (Vec3.skew2Of (u.normalize.cross w.normalize))
          (1 / (1 + u.normalize.dot w.normalize)))) := by
      simp only [Vec3.to_align]
      rw [if_neg h]
    refine ⟨heq, ?_⟩
    rw [heq]
    have hc : 1 + u.normalize.dot w.normalize ≠ 0 := by
      intro h0
      apply h
      rw [show u.normalize.dot w.normalize + 1 = 1 + u.normalize.dot w.normalize by ring,
        h0]
      rw [abs_zero, TOLERANCE]
      norm_num
    have hA : u.normalize.x * u.normalize.x + u.normalize.y * u.normalize.y
        + u.normalize.z * u.normalize.z = 1 := normalize_dot_self u hu
    have hB : w.normalize.x * w.normalize.x + w.normalize.y * w.normalize.y
        + w.normalize.z * w.normalize.z = 1 := normalize_dot_self w hw
    have hc' : 1 + (u.normalize.x * w.normalize.x + u.normalize.y * w.normalize.y
        + u.normalize.z * w.normalize.z) ≠ 0 := hc
    exact rodrigues_maps u.normalize.x u.normalize.y u.normalize.z
      w.normalize.x w.normalize.y w.normalize.z hA hB hc'

/-- Witness for C6: aligning the x axis with its negation (antiparallel)
returns the identity matrix, and aligning the x axis with the y axis maps
the normalized x axis exactly onto the normalized y axis. -/
theorem c6_to_align_rotation_witness :
    (Vec3.mk 1 0 0).to_align (Vec3.mk (-1) 0 0) = I3
    ∧ (Vec3.mk 1 0 0).normalize.apply_matrix
        ((Vec3.mk 1 0 0).to_align (Vec3.mk 0 1 0)) = (Vec3.mk 0 1 0).normalize := by
  have hx : (Vec3.mk 1 0 0).norm ≠ 0 := by norm_num [Vec3.norm]
  have hnx : (Vec3.mk (-1) 0 0).norm ≠ 0 := by norm_num [Vec3.norm]
  have hy : (Vec3.mk 0 1 0).norm ≠ 0 := by norm_num [Vec3.norm]
  constructor
  · exact (c6_to_align_rotation (Vec3.mk 1 0 0) (Vec3.mk (-1) 0 0) hx hnx).1
      (by norm_num [Vec3.normalize, Vec3.norm, Vec3.dot, TOLERANCE])
  · exact ((c6_to_align_rotation (Vec3.mk 1 0 0) (Vec3.mk 0 1 0) hx hy).2
      (by norm_num [Vec3.normalize, Vec3.norm, Vec3.dot, TOLERANCE])).2

/-- Scan lemma: the shadow scan over occluder-free primitives reports full
visibility. -/
theorem shadowScan_clear (recurse : Ray → Option ℝ) (ray : Ray) (tLight : ℝ) :
    ∀ l : List Shape,
      (∀ o ∈ l, ∀ t, o.get_intersection ray = some t →
          ¬(t < tLight ∧ t > TOLERANCE)) →
      shadowScan recurse ray tLight l = some 1 := by
  intro l
  induction l with
  | nil => intro _; rfl
  | cons o rest ih =>
    intro hall
    cases ho : o.get_intersection ray with
    | none =>
      simp only [shadowScan, ho]
      exact ih (fun o' ho' t ht => hall o' (List.mem_cons_of_mem _ ho') t ht)
    | some t =>
      simp only [shadowScan, ho]
      rw [if_neg (hall o (List.mem_cons_self o rest) t ho)]
      exact ih (fun o' ho' t' ht' => hall o' (List.mem_cons_of_mem _ ho') t' ht')

/-- Scan lemma: the first primitive whose reported `t` lies strictly between
the tolerance and the light distance decides the shadow factor: an opaque
occluder gives `0`, a transparent one multiplies its transparency into the
recursive factor of the continued ray. -/
theorem shadowScan_occluder (recurse : Ray → Option ℝ) (ray : Ray) (tLight : ℝ)
    (o : Shape) (l2 : List Shape) (t : ℝ)
    (ht : o.get_intersection ray = some t) (hc1 : t < tLight) (hc2 : t > TOLERANCE) :
    ∀ l1 : List Shape,
      (∀ o' ∈ l1, ∀ t', o'.get_intersection ray = some t' →
          ¬(t' < tLight ∧ t' > TOLERANCE)) →
      shadowScan recurse ray tLight (l1 ++ o :: l2)
        = if o.transparency > 0 then
            (recurse (Ray.advance ⟨ray.point_at_t t, get_refractive_dir ray⟩
              TOLERANCE)).map (fun f => o.transparency * f)
          else some 0 := by
  intro l1
  induction l1 with
  | nil =>
    intro _
    rw [List.nil_append]
    simp only [shadowScan, ht]
    rw [if_pos (show t < tLight ∧ t > TOLERANCE from ⟨hc1, hc2⟩)]
  | cons o' rest ih =>
    intro hall
    rw [List.cons_append]
    cases ho' : o'.get_intersection ray with
    | none =>
      simp only [shadowScan, ho']
      exact ih (fun o'' ho'' t'' ht'' => hall o'' (List.mem_cons_of_mem _ ho'') t'' ht'')
    | some t' =>
      simp only [shadowScan, ho']
      rw [if_neg (hall o' (List.mem_cons_self o' rest) t' ho')]
      exact ih (fun o'' ho'' t'' ht'' => hall o'' (List.mem_cons_of_mem _ ho'') t'' ht'')

/-- Scan lemma: when the recursive shadow factors lie in `[0, 1]` and the
transparencies of the scanned primitives lie in `[0, 1]`, the shadow scan's
result lies in `[0, 1]`. -/
theorem shadowScan_range (recurse : Ray → Option ℝ)
    (hrec : ∀ r x, recurse r = some x → 0 ≤ x ∧ x ≤ 1)
    (ray : Ray) (tLight : ℝ) :
    ∀ l : List Shape, (∀ o ∈ l, 0 ≤ o.transparency ∧ o.transparency ≤ 1) →
      ∀ x, shadowScan recurse ray tLight l = some x → 0 ≤ x ∧ x ≤ 1 := by
  intro l
  induction l with
  | nil =>
    intro _ x hx
    have := Option.some.inj hx
    rw [← this]
    norm_num
  | cons o rest ih =>
    intro hl x hx
    cases ho : o.get_intersection ray with
    | none =>
      simp only [shadowScan, ho] at hx
      exact ih (fun o' ho' => hl o' (List.mem_cons_of_mem _ ho')) x hx
    | some t =>
      simp only [shadowScan, ho] at hx
      by_cases hcond : t < tLight ∧ t > TOLERANCE
      · rw [if_pos hcond] at hx
        by_cases htr : o.transparency > 0
        · rw [if_pos htr] at hx
          rcases Option.map_eq_some'.mp hx with ⟨f, hf, hxf⟩
          have hfr := hrec _ f hf
          have htro := hl o (List.mem_cons_self o rest)
          rw [← hxf]
          exact ⟨mul_nonneg htro.1 hfr.1, mul_le_one₀ htro.2 hfr.1 hfr.2⟩
        · rw [if_neg htr] at hx
          have := Option.some.inj hx
          rw [← this]
          norm_num
      · rw [if_neg hcond] at hx
        exact ih (fun o' ho' => hl o' (List.mem_cons_of_mem _ ho')) x hx

/-- CLAIM C7.  The shadow test returns a factor in `[0, 1]` (whenever the
scene's transparencies lie in `[0, 1]`); it returns `1` when no primitive
intersects the shadow ray strictly between the tolerance offset and the
light's distance; and the first occluder found decides the factor: `0` if it
is opaque, otherwise its transparency times the recursive shadow factor of
the ray continued through it in the same direction. -/
theorem c7_shadow_factor (scene : Scene)
    (hrange : ∀ o ∈ scene.objects, 0 ≤ o.transparency ∧ o.transparency ≤ 1) :
    (∀ n ray light x, get_shadow_intersection n ray scene light = some x →
        0 ≤ x ∧ x ≤ 1)
    ∧ (∀ n ray light,
        (∀ o ∈ scene.objects, ∀ t, o.get_intersection ray = some t →
            ¬(t < (light.position - ray.anchor).norm ∧ t > TOLERANCE)) →
        get_shadow_intersection (n + 1) ray scene light = some 1)
    ∧ (∀ n ray light t, ∀ occluder : Shape, ∀ l1 l2 : List Shape,
        scene.objects = l1 ++ occluder :: l2 →
        (∀ o ∈ l1, ∀ t', o.get_intersection ray = some t' →
            ¬(t' < (light.position - ray.anchor).norm ∧ t' > TOLERANCE)) →
        occluder.get_intersection ray = some t →
        t < (light.position - ray.anchor).norm → t > TOLERANCE →
        (¬ occluder.transparency > 0 →
            get_shadow_intersection (n + 1) ray scene light = some 0)
        ∧ (occluder.transparency > 0 →
            get_shadow_intersection (n + 1) ray scene light
              = (get_shadow_intersection n
                  (Ray.advance ⟨ray.point_at_t t, get_refractive_dir ray⟩ TOLERANCE)
                  scene light).map (fun f => occluder.transparency * f))) := by
  refine ⟨?_, ?_, ?_⟩
  · intro n
    induction n with
    | zero => intro ray light x hx; exact Option.noConfusion hx
    | succ n ih =>
      intro ray light x hx
      rw [get_shadow_intersection] at hx
      exact shadowScan_range _ (fun r => ih r light) ray _ scene.objects hrange x hx
  · intro n ray light hclear
    rw [get_shadow_intersection]
    exact shadowScan_clear _ ray _ scene.objects hclear
  · intro n ray light t occluder l1 l2 hsplit h1 ht hc1 hc2
    have hscan := shadowScan_occluder
      (fun r => get_shadow_intersection n r scene light) ray
      ((light.position - ray.anchor).norm) occluder l2 t ht hc1 hc2 l1 h1
    constructor
    · intro htr
      rw [get_shadow_intersection, hsplit, hscan, if_neg htr]
    · intro htr
      rw [get_shadow_intersection, hsplit, hscan, if_pos htr]

/-- Witness scene for C7: a single opaque unit sphere at the origin. -/
def shadowScene : Scene := ⟨[Shape.sphere unitSphere], [], 0, ⟨0, 1, 0⟩, ⟨1, 1, 1⟩⟩

/-- Witness light for C7, sitting at `(0, 0, 20)` behind the sphere as seen
from `(0, 0, -10)`. -/
def witnessLight : Light := ⟨⟨0, 0, 20⟩, 1, 1, 0, 0, ⟨1, 1, 1⟩⟩

/-- Witness for C7: the opaque sphere occluding the shadow ray at `t = 9`
(strictly between tolerance and the light distance `30`) gives factor `0`,
and the same shadow ray in the empty scene gives factor `1`. -/
theorem c7_shadow_factor_witness :
    get_shadow_intersection 1 ⟨⟨0, 0, -10⟩, ⟨0, 0, 1⟩⟩ shadowScene witnessLight = some 0
    ∧ get_shadow_intersection 1 ⟨⟨0, 0, -10⟩, ⟨0, 0, 1⟩⟩ emptyScene witnessLight
        = some 1 := by
  have hrange : ∀ o ∈ shadowScene.objects, 0 ≤ o.transparency ∧ o.transparency ≤ 1 := by
    intro o ho
    simp only [shadowScene, List.mem_singleton] at ho
    subst ho
    norm_num [Shape.transparency, Shape.get_params, unitSphere, dummyParams]
  have hnorm : (witnessLight.position - Vec3.mk 0 0 (-10)).norm = 30 := by
    have h900 : Real.sqrt 900 = 30 := sqrt_eval 900 30 (by norm_num) (by norm_num)
    simp only [witnessLight, Vec3.norm, Vec3.sub_x, Vec3.sub_y, Vec3.sub_z]
    norm_num [h900]
  constructor
  · refine ((c7_shadow_factor shadowScene hrange).2.2 0 ⟨⟨0, 0, -10⟩, ⟨0, 0, 1⟩⟩
      witnessLight 9 (Shape.sphere unitSphere) [] [] rfl (by simp) ?_ ?_ ?_).1 ?_
    · simp only [Shape.get_intersection, unitSphere]
      exact sphere_hit_t9 dummyParams
    · rw [show (⟨⟨0, 0, -10⟩, ⟨0, 0, 1⟩⟩ : Ray).anchor = Vec3.mk 0 0 (-10) from rfl, hnorm]
      norm_num
    · rw [TOLERANCE]
      norm_num
    · norm_num [Shape.transparency, Shape.get_params, unitSphere, dummyParams]
  · exact (c7_shadow_factor emptyScene (by simp [emptyScene])).2.1 0
      ⟨⟨0, 0, -10⟩, ⟨0, 0, 1⟩⟩ witnessLight (by simp [emptyScene])

/-- CLAIM C9.  When a hit exists and its local colour is resolved, the
resolver returns exactly the local colour when the local opacity is `1` or
the accumulated opacity budget is at or below the minimal threshold;
otherwise it returns `o1` times the local colour plus the reflection
coefficient times the reflected branch colour plus the transparency
coefficient times the transmitted branch colour, where an inactive branch
(coefficient at or below tolerance, or reflection depth exhausted)
contributes the local colour itself. -/
theorem c9_recursive_compositing (n : ℕ) (ray : Ray) (scene : Scene)
    (total_o1 : ℝ) (reflections : ℕ) (inter : Intersection) (oc : Color)
    (hinter : get_first_intersection ray scene = some inter)
    (hlocal : local_object_color n ray scene inter = some oc) :
    (¬ (inter.object.o1 < 1 ∧ total_o1 > TOLERANCE * TOLERANCE_MUL) →
        get_color_pixel (n + 1) ray scene total_o1 reflections = some oc)
    ∧ (inter.object.o1 < 1 → total_o1 > TOLERANCE * TOLERANCE_MUL →
        ∀ tc rc : Color,
          transparency_branch (fun r o k => get_color_pixel n r scene o k) ray inter
            total_o1 reflections oc = some tc →
          reflection_branch (fun r o k => get_color_pixel n r scene o k) ray inter
            total_o1 reflections oc = some rc →
          get_color_pixel (n + 1) ray scene total_o1 reflections
            = some (inter.object.o1 * oc + inter.object.reflection * rc
                + inter.object.transparency * tc))
    ∧ (inter.object.transparency ≤ TOLERANCE →
        transparency_branch (fun r o k => get_color_pixel n r scene o k) ray inter
          total_o1 reflections oc = some oc)
    ∧ ((inter.object.reflection ≤ TOLERANCE ∨ reflections = 0) →
        reflection_branch (fun r o k => get_color_pixel n r scene o k) ray inter
          total_o1 reflections oc = some oc) := by
  refine ⟨?_, ?_, ?_, ?_⟩
  · intro hno
    simp only [get_color_pixel, hinter, hlocal, Option.some_bind]
    rw [if_neg hno]
  · intro h1 h2 tc rc htc hrc
    simp only [get_color_pixel, hinter, hlocal, Option.some_bind]
    rw [if_pos (⟨h1, h2⟩ : inter.object.o1 < 1 ∧ total_o1 > TOLERANCE * TOLERANCE_MUL),
      htc, Option.some_bind, hrc, Option.some_bind]
  · intro htr
    rw [transparency_branch, if_neg (not_lt.mpr htr)]
  · intro hre
    rw [reflection_branch]
    rcases hre with hre | hre
    · rw [if_neg (by intro hand; exact absurd hand.1 (not_lt.mpr hre))]
    · rw [if_neg (by intro hand; rw [hre] at hand; exact absurd hand.2 (lt_irrefl 0))]

/-- Witness material for C9: translucent-by-opacity red with full ambient
response, zero reflection and transparency coefficients. -/
def c9Params : ObjectParameters :=
  { color := ⟨1, 0, 0⟩, k_a := 1, k_d := 0, k_n := 1, k_s := 0,
    o1 := 0.5, reflection := 0, transparency := 0, checkerboard := 0 }

/-- Witness scene for C9: one unit sphere of the C9 material under full
white ambient light and no point lights. -/
def c9Scene : Scene :=
  ⟨[Shape.sphere ⟨⟨0, 0, 0⟩, 1, c9Params⟩], [], 1, ⟨0, 0, 0⟩, ⟨1, 1, 1⟩⟩

/-- Witness for C9: on the C9 scene the local colour is pure red, both
branches are inactive and fall back to the local colour, and the resolver
returns `0.5` times red plus `0` times red plus `0` times red, i.e. half
red. -/
theorem c9_recursive_compositing_witness :
    get_color_pixel 1 ⟨⟨0, 0, -10⟩, ⟨0, 0, 1⟩⟩ c9Scene 1 5 = some ⟨0.5, 0, 0⟩ := by
  have hpoint : Ray.point_at_t ⟨⟨0, 0, -10⟩, ⟨0, 0, 1⟩⟩ 9 = Vec3.mk 0 0 (-1) := by
    ext <;> norm_num [Ray.point_at_t]
  have hinter : get_first_intersection ⟨⟨0, 0, -10⟩, ⟨0, 0, 1⟩⟩ c9Scene
      = some ⟨Shape.sphere ⟨⟨0, 0, 0⟩, 1, c9Params⟩, ⟨0, 0, -1⟩⟩ := by
    rw [get_first_intersection]
    simp only [c9Scene, List.foldl_cons, List.foldl_nil, firstInterStep,
      Shape.get_intersection, sphere_hit_t9]
    norm_num [hpoint]
  have hlocal : local_object_color 0 ⟨⟨0, 0, -10⟩, ⟨0, 0, 1⟩⟩ c9Scene
      ⟨Shape.sphere ⟨⟨0, 0, 0⟩, 1, c9Params⟩, ⟨0, 0, -1⟩⟩ = some (⟨1, 0, 0⟩ : Color) := by
    rw [local_object_color]
    simp only [c9Scene, traverseOption, Option.map_some',
      List.zip_nil_right, List.map_nil, colorSum, List.foldl_nil]
    congr 1
    ext <;>
      norm_num [Color.BLACK, Color.cmin, clampR, min_def, max_def, Shape.get_color_at,
        Shape.checkerboard, Shape.color, Shape.get_params, Shape.k_a, c9Params]
  have hc9 := c9_recursive_compositing 0 ⟨⟨0, 0, -10⟩, ⟨0, 0, 1⟩⟩ c9Scene 1 5
    ⟨Shape.sphere ⟨⟨0, 0, 0⟩, 1, c9Params⟩, ⟨0, 0, -1⟩⟩ ⟨1, 0, 0⟩ hinter hlocal
  have htc := hc9.2.2.1
    (by norm_num [Shape.transparency, Shape.get_params, c9Params, TOLERANCE])
  have hrc := hc9.2.2.2
    (Or.inl (by norm_num [Shape.reflection, Shape.get_params, c9Params, TOLERANCE]))
  have hmain := hc9.2.1
    (by norm_num [Shape.o1, Shape.get_params, c9Params])
    (by norm_num [TOLERANCE, TOLERANCE_MUL]) _ _ htc hrc
  rw [hmain]
  congr 1
  ext <;>
    norm_num [Shape.o1, Shape.reflection, Shape.transparency, Shape.get_params,
      c9Params, clampR]

/-- Fully transparent material (`transparency = 1`, local opacity `0`) for
the C8 counterexample scene. -/
def glassParams : ObjectParameters :=
  { color := ⟨1, 0, 0⟩, k_a := 0, k_d := 0, k_n := 1, k_s := 0,
    o1 := 0, reflection := 0, transparency := 1, checkerboard := 0 }

/-- Fully transparent plane `z = k` facing the camera. -/
def chainPlane (k : ℝ) : Plane := Plane.new ⟨0, 0, 1⟩ ⟨0, 0, k⟩ glassParams

/-- C8 counterexample scene: six fully transparent planes at `z = 1 .. 6`,
no lights, green background. -/
def chainScene : Scene :=
  ⟨[Shape.plane (chainPlane 1), Shape.plane (chainPlane 2), Shape.plane (chainPlane 3),
    Shape.plane (chainPlane 4), Shape.plane (chainPlane 5), Shape.plane (chainPlane 6)],
   [], 0, ⟨0, 1, 0⟩, ⟨1, 1, 1⟩⟩

/-- Evaluation helper: intersection of a chain plane with an axial ray. -/
theorem chainPlane_inter (k z : ℝ) :
    (chainPlane k).get_intersection ⟨⟨0, 0, z⟩, ⟨0, 0, 1⟩⟩
      = if k - z > 0 then some (k - z) else none := by
  have hp : chainPlane k = ⟨⟨0, 0, 1⟩, ⟨0, 0, k⟩, glassParams⟩ := by
    simp [chainPlane, Plane.new, normalize_unit_z]
  rw [hp, Plane.get_intersection]
  simp only [Vec3.dot, Vec3.sub_x, Vec3.sub_y, Vec3.sub_z]
  norm_num [TOLERANCE]

/-- Evaluation helper: the local colour of any hit in the C8 scene is black
(no lights, zero ambient coefficient). -/
theorem chain_local (n : ℕ) (ray : Ray) (inter : Intersection)
    (hobj : inter.object.get_params = glassParams) :
    local_object_color n ray chainScene inter = some ⟨0, 0, 0⟩ := by
  rw [local_object_color]
  simp only [chainScene, traverseOption, Option.map_some',
    List.zip_nil_right, List.map_nil, colorSum, List.foldl_nil]
  congr 1
  ext <;>
    norm_num [Color.BLACK, Color.cmin, clampR, min_def, max_def, Shape.get_color_at,
      Shape.checkerboard, Shape.color, Shape.k_a, hobj, glassParams]

/-- Evaluation helper: one fully transparent compositing step of the C8
chain, none case: if the continued ray's resolution is out of fuel so is
this level's. -/
theorem chain_wrap_none (fuel : ℕ) (z k : ℝ)
    (hfirst : get_first_intersection ⟨⟨0, 0, z⟩, ⟨0, 0, 1⟩⟩ chainScene
      = some ⟨Shape.plane (chainPlane k), ⟨0, 0, k⟩⟩)
    (hinner : get_color_pixel fuel (Ray.advance ⟨⟨0, 0, k⟩, ⟨0, 0, 1⟩⟩ TOLERANCE)
      chainScene 1 5 = none) :
    get_color_pixel (fuel + 1) ⟨⟨0, 0, z⟩, ⟨0, 0, 1⟩⟩ chainScene 1 5 = none := by
  have hobj : (Shape.plane (chainPlane k)).get_params = glassParams := by
    simp [chainPlane, Plane.new, Shape.get_params]
  simp only [get_color_pixel, hfirst]
  rw [chain_local fuel _ _ hobj, Option.some_bind]
  rw [if_pos (show (Shape.plane (chainPlane k)).o1 < 1
      ∧ (1 : ℝ) > TOLERANCE * TOLERANCE_MUL from
    ⟨by norm_num [Shape.o1, hobj, glassParams],
     by norm_num [TOLERANCE, TOLERANCE_MUL]⟩)]
  rw [transparency_branch,
    if_pos (show (Shape.plane (chainPlane k)).transparency > TOLERANCE by
      norm_num [Shape.transparency, hobj, glassParams, TOLERANCE])]
  simp only [Shape.transparency, hobj, glassParams, mul_one, get_refractive_dir]
  rw [hinner]
  rfl

/-- Evaluation helper: one fully transparent compositing step of the C8
chain, background case: the background colour passes through unchanged. -/
theorem chain_wrap_bg (fuel : ℕ) (z k : ℝ)
    (hfirst : get_first_intersection ⟨⟨0, 0, z⟩, ⟨0, 0, 1⟩⟩ chainScene
      = some ⟨Shape.plane (chainPlane k), ⟨0, 0, k⟩⟩)
    (hinner : get_color_pixel fuel (Ray.advance ⟨⟨0, 0, k⟩, ⟨0, 0, 1⟩⟩ TOLERANCE)
      chainScene 1 5 = some ⟨0, 1, 0⟩) :
    get_color_pixel (fuel + 1) ⟨⟨0, 0, z⟩, ⟨0, 0, 1⟩⟩ chainScene 1 5
      = some ⟨0, 1, 0⟩ := by
  have hobj : (Shape.plane (chainPlane k)).get_params = glassParams := by
    simp [chainPlane, Plane.new, Shape.get_params]
  simp only [get_color_pixel, hfirst]
  rw [chain_local fuel _ _ hobj, Option.some_bind]
  rw [if_pos (show (Shape.plane (chainPlane k)).o1 < 1
      ∧ (1 : ℝ) > TOLERANCE * TOLERANCE_MUL from
    ⟨by norm_num [Shape.o1, hobj, glassParams],
     by norm_num [TOLERANCE, TOLERANCE_MUL]⟩)]
  rw [transparency_branch,
    if_pos (show (Shape.plane (chainPlane k)).transparency > TOLERANCE by
      norm_num [Shape.transparency, hobj, glassParams, TOLERANCE])]
  simp only [Shape.transparency, hobj, glassParams, mul_one, get_refractive_dir]
  rw [hinner, Option.some_bind]
  rw [reflection_branch,
    if_neg (show ¬ ((Shape.plane (chainPlane k)).reflection > TOLERANCE ∧ (5:ℕ) > 0) by
      intro hand
      have := hand.1
      rw [Shape.reflection, hobj] at this
      norm_num [glassParams, TOLERANCE] at this)]
  rw [Option.some_bind]
  congr 1
  ext <;>
    norm_num [Shape.o1, Shape.reflection, Shape.transparency, hobj, glassParams,
      clampR, min_def, max_def]

/-- CLAIM C8 (counterexample).  The recursion depth of the colour resolver
is not bounded by `MAX_REFLECTIONS`: the transparency branch recurses
without decrementing the reflection budget and, with transparency `1`, the
opacity budget `total_o1` never decreases, so on the six-plane fully
transparent chain the call tree is seven calls deep — fuel
`MAX_REFLECTIONS + 1 = 6` (enough for the claimed bound of
`MAX_REFLECTIONS` recursive calls below the primary one) is exhausted,
while fuel `7` resolves to the background colour. -/
theorem c8_transparency_chain_exceeds_depth :
    get_color_pixel (MAX_REFLECTIONS + 1) ⟨⟨0, 0, 0⟩, ⟨0, 0, 1⟩⟩ chainScene 1
      MAX_REFLECTIONS = none
    ∧ get_color_pixel 7 ⟨⟨0, 0, 0⟩, ⟨0, 0, 1⟩⟩ chainScene 1 MAX_REFLECTIONS
      = some chainScene.bg_color := by
  have hadv : ∀ k : ℝ, Ray.advance ⟨⟨0, 0, k⟩, ⟨0, 0, 1⟩⟩ TOLERANCE
      = ⟨⟨0, 0, k + 0.00001⟩, ⟨0, 0, 1⟩⟩ := by
    intro k
    simp only [Ray.advance, Ray.mk.injEq, and_true]
    ext <;> norm_num [TOLERANCE]
  have hf0 : get_first_intersection ⟨⟨0, 0, 0⟩, ⟨0, 0, 1⟩⟩ chainScene
      = some ⟨Shape.plane (chainPlane 1), ⟨0, 0, 1⟩⟩ := by
    rw [get_first_intersection]
    simp only [chainScene, List.foldl_cons, List.foldl_nil, firstInterStep,
      Shape.get_intersection, chainPlane_inter]
    norm_num [Ray.point_at_t]
  have hf1 : get_first_intersection ⟨⟨0, 0, 1 + 0.00001⟩, ⟨0, 0, 1⟩⟩ chainScene
      = some ⟨Shape.plane (chainPlane 2), ⟨0, 0, 2⟩⟩ := by
    rw [get_first_intersection]
    simp only [chainScene, List.foldl_cons, List.foldl_nil, firstInterStep,
      Shape.get_intersection, chainPlane_inter]
    norm_num [Ray.point_at_t]
  have hf2 : get_first_intersection ⟨⟨0, 0, 2 + 0.00001⟩, ⟨0, 0, 1⟩⟩ chainScene
      = some ⟨Shape.plane (chainPlane 3), ⟨0, 0, 3⟩⟩ := by
    rw [get_first_intersection]
    simp only [chainScene, List.foldl_cons, List.foldl_nil, firstInterStep,
      Shape.get_intersection, chainPlane_inter]
    norm_num [Ray.point_at_t]
  have hf3 : get_first_intersection ⟨⟨0, 0, 3 + 0.00001⟩, ⟨0, 0, 1⟩⟩ chainScene
      = some ⟨Shape.plane (chainPlane 4), ⟨0, 0, 4⟩⟩ := by
    rw [get_first_intersection]
    simp only [chainScene, List.foldl_cons, List.foldl_nil, firstInterStep,
      Shape.get_intersection, chainPlane_inter]
    norm_num [Ray.point_at_t]
  have hf4 : get_first_intersection ⟨⟨0, 0, 4 + 0.00001⟩, ⟨0, 0, 1⟩⟩ chainScene
      = some ⟨Shape.plane (chainPlane 5), ⟨0, 0, 5⟩⟩ := by
    rw [get_first_intersection]
    simp only [chainScene, List.foldl_cons, List.foldl_nil, firstInterStep,
      Shape.get_intersection, chainPlane_inter]
    norm_num [Ray.point_at_t]
  have hf5 : get_first_intersection ⟨⟨0, 0, 5 + 0.00001⟩, ⟨0, 0, 1⟩⟩ chainScene
      = some ⟨Shape.plane (chainPlane 6), ⟨0, 0, 6⟩⟩ := by
    rw [get_first_intersection]
    simp only [chainScene, List.foldl_cons, List.foldl_nil, firstInterStep,
      Shape.get_intersection, chainPlane_inter]
    norm_num [Ray.point_at_t]
  have hf6 : get_first_intersection ⟨⟨0, 0, 6 + 0.00001⟩, ⟨0, 0, 1⟩⟩ chainScene
      = none := by
    rw [get_first_intersection]
    simp only [chainScene, List.foldl_cons, List.foldl_nil, firstInterStep,
      Shape.get_intersection, chainPlane_inter]
    norm_num
  constructor
  · have n1 : get_color_pixel 1 ⟨⟨0, 0, 5 + 0.00001⟩, ⟨0, 0, 1⟩⟩ chainScene 1 5
        = none := chain_wrap_none 0 (5 + 0.00001) 6 hf5 rfl
    have n2 : get_color_pixel 2 ⟨⟨0, 0, 4 + 0.00001⟩, ⟨0, 0, 1⟩⟩ chainScene 1 5
        = none := chain_wrap_none 1 (4 + 0.00001) 5 hf4 (by rw [hadv 5]; exact n1)
    have n3 : get_color_pixel 3 ⟨⟨0, 0, 3 + 0.00001⟩, ⟨0, 0, 1⟩⟩ chainScene 1 5
        = none := chain_wrap_none 2 (3 + 0.00001) 4 hf3 (by rw [hadv 4]; exact n2)
    have n4 : get_color_pixel 4 ⟨⟨0, 0, 2 + 0.00001⟩, ⟨0, 0, 1⟩⟩ chainScene 1 5
        = none := chain_wrap_none 3 (2 + 0.00001) 3 hf2 (by rw [hadv 3]; exact n3)
    have n5 : get_color_pixel 5 ⟨⟨0, 0, 1 + 0.00001⟩, ⟨0, 0, 1⟩⟩ chainScene 1 5
        = none := chain_wrap_none 4 (1 + 0.00001) 2 hf1 (by rw [hadv 2]; exact n4)
    exact chain_wrap_none 5 0 1 hf0 (by rw [hadv 1]; exact n5)
  · have b1 : get_color_pixel 1 ⟨⟨0, 0, 6 + 0.00001⟩, ⟨0, 0, 1⟩⟩ chainScene 1 5
        = some ⟨0, 1, 0⟩ := by
      simp only [get_color_pixel, hf6]
      rfl
    have b2 : get_color_pixel 2 ⟨⟨0, 0, 5 + 0.00001⟩, ⟨0, 0, 1⟩⟩ chainScene 1 5
        = some ⟨0, 1, 0⟩ := chain_wrap_bg 1 (5 + 0.00001) 6 hf5 (by rw [hadv 6]; exact b1)
    have b3 : get_color_pixel 3 ⟨⟨0, 0, 4 + 0.00001⟩, ⟨0, 0, 1⟩⟩ chainScene 1 5
        = some ⟨0, 1, 0⟩ := chain_wrap_bg 2 (4 + 0.00001) 5 hf4 (by rw [hadv 5]; exact b2)
    have b4 : get_color_pixel 4 ⟨⟨0, 0, 3 + 0.00001⟩, ⟨0, 0, 1⟩⟩ chainScene 1 5
        = some ⟨0, 1, 0⟩ := chain_wrap_bg 3 (3 + 0.00001) 4 hf3 (by rw [hadv 4]; exact b3)
    have b5 : get_color_pixel 5 ⟨⟨0, 0, 2 + 0.00001⟩, ⟨0, 0, 1⟩⟩ chainScene 1 5
        = some ⟨0, 1, 0⟩ := chain_wrap_bg 4 (2 + 0.00001) 3 hf2 (by rw [hadv 3]; exact b4)
    have b6 : get_color_pixel 6 ⟨⟨0, 0, 1 + 0.00001⟩, ⟨0, 0, 1⟩⟩ chainScene 1 5
        = some ⟨0, 1, 0⟩ := chain_wrap_bg 5 (1 + 0.00001) 2 hf1 (by rw [hadv 2]; exact b5)
    exact chain_wrap_bg 6 0 1 hf0 (by rw [hadv 1]; exact b6)

/-- Helper: the option traversal succeeds when every element succeeds. -/
theorem traverseOption_isSome {α β : Type} (f : α → Option β) :
    ∀ l : List α, (∀ a ∈ l, (f a).isSome = true) →
      (traverseOption f l).isSome = true := by
  intro l
  induction l with
  | nil => intro _; rfl
  | cons a rest ih =>
    intro hall
    obtain ⟨b, hb⟩ := Option.isSome_iff_exists.mp (hall a (List.mem_cons_self a rest))
    obtain ⟨bs, hbs⟩ := Option.isSome_iff_exists.mp
      (ih (fun a' ha' => hall a' (List.mem_cons_of_mem _ ha')))
    simp [traverseOption, hb, hbs]

/-- Helper: the shadow scan over fully opaque primitives never recurses and
always succeeds. -/
theorem shadowScan_opaque_isSome (recurse : Ray → Option ℝ) (ray : Ray) (tLight : ℝ) :
    ∀ l : List Shape, (∀ o ∈ l, o.transparency = 0) →
      (shadowScan recurse ray tLight l).isSome = true := by
  intro l
  induction l with
  | nil => intro _; rfl
  | cons o rest ih =>
    intro hall
    cases ho : o.get_intersection ray with
    | none =>
      simp only [shadowScan, ho]
      exact ih (fun o' ho' => hall o' (List.mem_cons_of_mem _ ho'))
    | some t =>
      simp only [shadowScan, ho]
      by_cases hcond : t < tLight ∧ t > TOLERANCE
      · rw [if_pos hcond]
        rw [if_neg (by rw [hall o (List.mem_cons_self o rest)]; norm_num)]
        rfl
      · rw [if_neg hcond]
        exact ih (fun o' ho' => hall o' (List.mem_cons_of_mem _ ho'))

/-- Helper: the shadow test on a fully opaque scene succeeds at any positive
fuel. -/
theorem shadow_opaque_isSome (scene : Scene)
    (hOpq : ∀ o ∈ scene.objects, o.transparency = 0) :
    ∀ n : ℕ, 1 ≤ n → ∀ ray light,
      (get_shadow_intersection n ray scene light).isSome = true := by
  intro n hn ray light
  cases n with
  | zero => exact absurd hn (by norm_num)
  | succ m =>
    rw [get_shadow_intersection]
    exact shadowScan_opaque_isSome _ ray _ scene.objects hOpq

/-- Helper: the local colour computation on a fully opaque scene succeeds at
any positive fuel. -/
theorem local_opaque_isSome (scene : Scene)
    (hOpq : ∀ o ∈ scene.objects, o.transparency = 0)
    (n : ℕ) (hn : 1 ≤ n) (ray : Ray) (inter : Intersection) :
    (local_object_color n ray scene inter).isSome = true := by
  rw [local_object_color]
  have hm := traverseOption_isSome
    (fun light => if SHADOWS then
        get_shadow_intersection n
          ((Ray.from_2_points inter.point light.position).advance TOLERANCE) scene light
      else some 0)
    scene.lights
    (fun light _ => by
      simpa [SHADOWS] using shadow_opaque_isSome scene hOpq n hn
        ((Ray.from_2_points inter.point light.position).advance TOLERANCE) light)
  obtain ⟨v, hv⟩ := Option.isSome_iff_exists.mp hm
  rw [hv]
  rfl

/-- CLAIM C8 (amended).  The reflection recursion is bounded by the
reflection budget, so on scenes whose primitives are all fully opaque
(transparency `0`) — including a pair of mutually facing mirrors with
reflection `1` — the resolver's call tree is bounded: fuel
`reflections + 2` always suffices; the original claim's bound fails only
for transparency chains, which recurse without consuming the reflection
budget (see the accompanying counterexample). -/
theorem c8_opaque_depth_bound (scene : Scene)
    (hOpq : ∀ o ∈ scene.objects, o.transparency = 0) :
    ∀ fuel reflections : ℕ, ∀ ray : Ray, ∀ total_o1 : ℝ,
      reflections + 2 ≤ fuel →
      (get_color_pixel fuel ray scene total_o1 reflections).isSome = true := by
  intro fuel
  induction fuel with
  | zero =>
    intro reflections ray total_o1 habs
    exact absurd habs (by omega)
  | succ m ih =>
    intro reflections ray total_o1 hfuel
    cases hfi : get_first_intersection ray scene with
    | none => simp [get_color_pixel, hfi]
    | some inter =>
      have hmem : inter.object ∈ scene.objects := by
        rw [get_first_intersection] at hfi
        rcases Option.map_eq_some'.mp hfi with ⟨q, hq, hmap⟩
        rcases firstInterFold_start_spec ray scene.objects q hq with
          ⟨l1, l2, hsplit, _, _, _⟩
        rw [← hmap, hsplit]
        simp
      have htr0 : inter.object.transparency = 0 := hOpq _ hmem
      obtain ⟨oc, hoc⟩ := Option.isSome_iff_exists.mp
        (local_opaque_isSome scene hOpq m (by omega) ray inter)
      simp only [get_color_pixel, hfi, hoc, Option.some_bind]
      by_cases hcond : inter.object.o1 < 1 ∧ total_o1 > TOLERANCE * TOLERANCE_MUL
      · rw [if_pos hcond]
        rw [transparency_branch,
          if_neg (by rw [htr0]; norm_num [TOLERANCE]), Option.some_bind]
        rw [reflection_branch]
        by_cases hact : inter.object.reflection > TOLERANCE ∧ reflections > 0
        · rw [if_pos hact]
          obtain ⟨rc, hrc⟩ := Option.isSome_iff_exists.mp
            (ih (reflections - 1) _ _ (by omega))
          rw [hrc]
          rfl
        · rw [if_neg hact]
          rfl
      · rw [if_neg hcond]
        rfl

/-- Fully reflective opaque mirror material for the C8 witness. -/
def mirrorParams : ObjectParameters :=
  { color := ⟨1, 1, 1⟩, k_a := 0, k_d := 0, k_n := 1, k_s := 0,
    o1 := 0, reflection := 1, transparency := 0, checkerboard := 0 }

/-- Witness scene for C8: two mutually facing mirrors with reflection `1`. -/
def mirrorScene : Scene :=
  ⟨[Shape.plane (Plane.new ⟨0, 0, 1⟩ ⟨0, 0, 0⟩ mirrorParams),
    Shape.plane (Plane.new ⟨0, 0, -1⟩ ⟨0, 0, 10⟩ mirrorParams)],
   [], 0, ⟨0, 1, 0⟩, ⟨1, 1, 1⟩⟩

/-- Witness for the amended C8: between the two facing mirrors, the resolver
with the configured budget `MAX_REFLECTIONS` terminates within fuel
`MAX_REFLECTIONS + 2`. -/
theorem c8_opaque_depth_bound_witness :
    (get_color_pixel (MAX_REFLECTIONS + 2) ⟨⟨0, 0, 5⟩, ⟨0, 0, 1⟩⟩ mirrorScene 1
      MAX_REFLECTIONS).isSome = true := by
  refine c8_opaque_depth_bound mirrorScene ?_ (MAX_REFLECTIONS + 2) MAX_REFLECTIONS
    ⟨⟨0, 0, 5⟩, ⟨0, 0, 1⟩⟩ 1 (le_refl _)
  intro o ho
  simp only [mirrorScene, List.mem_cons, List.mem_singleton, List.not_mem_nil,
    or_false] at ho
  rcases ho with ho | ho <;>
    · subst ho
      simp [Shape.transparency, Shape.get_params, Plane.new, mirrorParams]

/-- CLAIM C10.  Plotting a pixel writes the current drawing colour to
exactly the framebuffer cell at index `y * width + x`, leaves every other
cell and the screen's width, height and current colour unchanged, and for
in-range x-coordinates distinct pixel coordinates map to distinct cells. -/
theorem c10_plot_pixel (s : ScreenContextManager) (x y : ℕ)
    (hidx : y * s.width + x < s.framebuffer.length) :
    ((s.plot_pixel x y).framebuffer[y * s.width + x]? = some s.color)
    ∧ (∀ i, i ≠ y * s.width + x →
        (s.plot_pixel x y).framebuffer[i]? = s.framebuffer[i]?)
    ∧ (s.plot_pixel x y).width = s.width
    ∧ (s.plot_pixel x y).height = s.height
    ∧ (s.plot_pixel x y).color = s.color
    ∧ (s.plot_pixel x y).framebuffer.length = s.framebuffer.length
    ∧ (∀ x2 y2 : ℕ, x < s.width → x2 < s.width → (x, y) ≠ (x2, y2) →
        y * s.width + x ≠ y2 * s.width + x2) := by
  refine ⟨?_, ?_, rfl, rfl, rfl, ?_, ?_⟩
  · exact List.getElem?_set_eq_of_lt s.color hidx
  · intro i hi
    exact List.getElem?_set_ne (fun h => hi h.symm)
  · exact List.length_set s.framebuffer _ _
  · intro x2 y2 hx hx2 hne heq
    rcases lt_trichotomy y y2 with hy | hy | hy
    · have hstep : (y + 1) * s.width ≤ y2 * s.width :=
        Nat.mul_le_mul_right s.width hy
      rw [Nat.succ_mul] at hstep
      omega
    · subst hy
      have : x = x2 := by omega
      exact hne (by rw [this])
    · have hstep : (y2 + 1) * s.width ≤ y * s.width :=
        Nat.mul_le_mul_right s.width hy
      rw [Nat.succ_mul] at hstep
      omega

/-- Witness for C10: on a concrete 2x2 screen, plotting `(1, 1)` writes the
current colour to cell `3`, leaves cell `0` unchanged, and the coordinates
`(1, 1)` and `(0, 1)` occupy distinct cells. -/
theorem c10_plot_pixel_witness :
    ((ScreenContextManager.plot_pixel ⟨[⟨0, 0, 0⟩, ⟨0, 0, 0⟩, ⟨0, 0, 0⟩, ⟨0, 0, 0⟩],
        ⟨9, 9, 9⟩, 2, 2⟩ 1 1).framebuffer[3]? = some ⟨9, 9, 9⟩)
    ∧ ((ScreenContextManager.plot_pixel ⟨[⟨0, 0, 0⟩, ⟨0, 0, 0⟩, ⟨0, 0, 0⟩, ⟨0, 0, 0⟩],
        ⟨9, 9, 9⟩, 2, 2⟩ 1 1).framebuffer[0]? = some ⟨0, 0, 0⟩)
    ∧ (1 * 2 + 1 ≠ 1 * 2 + 0) := by
  have h := c10_plot_pixel ⟨[⟨0, 0, 0⟩, ⟨0, 0, 0⟩, ⟨0, 0, 0⟩, ⟨0, 0, 0⟩], ⟨9, 9, 9⟩, 2, 2⟩
    1 1 (by norm_num)
  refine ⟨h.1, ?_, h.2.2.2.2.2.2 0 1 (by norm_num) (by norm_num) (by decide)⟩
  rw [h.2.1 0 (by norm_num)]
  rfl

/-- Predicate: every channel of the colour lies in `[0, 1]`. -/
def colorInRange (c : Color) : Prop :=
  0 ≤ c.r ∧ c.r ≤ 1 ∧ 0 ≤ c.g ∧ c.g ≤ 1 ∧ 0 ≤ c.b ∧ c.b ≤ 1

/-- CLAIM C5 (counterexample).  Multiplication of a colour by a scalar does
not clamp: scaling pure white (channels in `[0, 1]`) by `2` yields channel
values `2`, outside `[0, 1]`, refuting the claim that every colour-producing
combining operation preserves the `[0, 1]` channel invariant whenever the
operand colours' channels lie in `[0, 1]`. -/
theorem c5_scalar_mul_escapes_range :
    colorInRange Color.WHITE
    ∧ ((2 : ℝ) * Color.WHITE).r = 2 ∧ ¬ ((2 : ℝ) * Color.WHITE).r ≤ 1 := by
  refine ⟨?_, ?_, ?_⟩ <;> norm_num [Color.WHITE, colorInRange]

/-- CLAIM C5 (amended).  Componentwise addition, subtraction and
multiplication clamp every channel into `[0, 1]` and so preserve the
invariant unconditionally; multiplication by a scalar does not clamp and
preserves the invariant only when the scalar itself also lies in `[0, 1]`. -/
theorem c5_color_ops_range (a b : Color) (s : ℝ) :
    colorInRange (a + b) ∧ colorInRange (a - b) ∧ colorInRange (a * b)
    ∧ (colorInRange a → 0 ≤ s → s ≤ 1 → colorInRange (s * a)) := by
  refine ⟨?_, ?_, ?_, ?_⟩
  · exact ⟨(clampR_unit_mem _).1, (clampR_unit_mem _).2, (clampR_unit_mem _).1,
      (clampR_unit_mem _).2, (clampR_unit_mem _).1, (clampR_unit_mem _).2⟩
  · exact ⟨(clampR_unit_mem _).1, (clampR_unit_mem _).2, (clampR_unit_mem _).1,
      (clampR_unit_mem _).2, (clampR_unit_mem _).1, (clampR_unit_mem _).2⟩
  · exact ⟨(clampR_unit_mem _).1, (clampR_unit_mem _).2, (clampR_unit_mem _).1,
      (clampR_unit_mem _).2, (clampR_unit_mem _).1, (clampR_unit_mem _).2⟩
  · rintro ⟨hr0, hr1, hg0, hg1, hb0, hb1⟩ hs0 hs1
    exact ⟨mul_nonneg hr0 hs0, mul_le_one₀ hr1 hs0 hs1,
      mul_nonneg hg0 hs0, mul_le_one₀ hg1 hs0 hs1,
      mul_nonneg hb0 hs0, mul_le_one₀ hb1 hs0 hs1⟩

/-- Witness for C5: the clamped operations stay inside `[0, 1]` on concrete
colours, and scaling a concrete in-range colour by the in-range scalar `0.5`
stays inside `[0, 1]`. -/
theorem c5_color_ops_range_witness :
    colorInRange (Color.mk 0.75 0 1 + Color.mk 0.75 1 0.5)
    ∧ colorInRange ((0.5 : ℝ) * Color.mk 1 0.5 0) := by
  have h := c5_color_ops_range (Color.mk 0.75 0 1) (Color.mk 0.75 1 0.5) 0.5
  have h' := c5_color_ops_range (Color.mk 1 0.5 0) (Color.mk 0 0 0) 0.5
  exact ⟨h.1, h'.2.2.2 (by norm_num [colorInRange]) (by norm_num) (by norm_num)⟩

end

end Raytracer
